import Mathlib

/-!
Verification development for the doc-note-taker medical NLP pipeline
(backend/services: ner_extraction.py, sentiment_intent.py, summarizer.py,
soap_generator.py, nlp_pipeline.py; backend/utils: helpers.py,
preprocessing.py).

Strings are embedded as `List Char` (`Str`).  Python's `str.lower` is
embedded for the ASCII range (all texts and vocabulary in the repository are
ASCII).  Calls into external ML models (the BioBERT token-classification
pipeline, the BERT sentiment pipeline, the spaCy keyword model) are embedded
as oracle parameters: `none` models the documented "model unavailable /
load failed" path, in which the source returns an empty contribution.
Python's `list(set(xs))` is embedded as exact-equality deduplication keeping
the first occurrence of each element (`pySetList`); CPython's set iteration
order is unspecified, and every property verified below is insensitive to
the order chosen (membership, counts, and per-element predicates).
-/

/-- Embedded Python string: a list of characters. -/
abbrev Str := List Char

/-- Shorthand turning a Lean string literal into an embedded `Str`. -/
def S (s : String) : Str := s.toList

/-- Python `\s` for the ASCII range: space, tab, newline, carriage return,
vertical tab, form feed (the whitespace class used by `re` and `str.strip`). -/
def isSpaceChar (c : Char) : Bool :=
  c = ' ' || c = '\t' || c = '\n' || c = '\r' || c = '\x0b' || c = '\x0c'

/-- ASCII uppercase letter test (Python `str.isupper` on one ASCII char). -/
def isUpperChar (c : Char) : Bool := 'A' ≤ c && c ≤ 'Z'

/-- ASCII lowercase letter test. -/
def isLowerChar (c : Char) : Bool := 'a' ≤ c && c ≤ 'z'

/-- ASCII letter: with `re.IGNORECASE`, both `[A-Z]` and `[a-z]` match these. -/
def isAlphaChar (c : Char) : Bool := isUpperChar c || isLowerChar c

/-- ASCII digit, the `\d` class restricted to ASCII. -/
def isDigitChar (c : Char) : Bool := '0' ≤ c && c ≤ '9'

/-- Python `\w` (ASCII): letters, digits and underscore. -/
def isWordChar (c : Char) : Bool := isAlphaChar c || isDigitChar c || c = '_'

/-- ASCII `str.lower` on one character. -/
def toLowerChar (c : Char) : Char :=
  if isUpperChar c then Char.ofNat (c.toNat + 32) else c

/-- ASCII `str.upper` on one character. -/
def toUpperChar (c : Char) : Char :=
  if isLowerChar c then Char.ofNat (c.toNat - 32) else c

/-- Python `str.lower` (ASCII range). -/
def lowerStr (s : Str) : Str := s.map toLowerChar

/-- Python `str.lstrip()`. -/
def lstrip (s : Str) : Str := s.dropWhile isSpaceChar

/-- Python `str.rstrip()`. -/
def rstrip (s : Str) : Str := (s.reverse.dropWhile isSpaceChar).reverse

/-- Python `str.strip()`. -/
def strip (s : Str) : Str := rstrip (lstrip s)

/-- Python `str.capitalize()`: first character uppercased, the rest
lowercased. -/
def capitalizeStr : Str → Str
  | [] => []
  | c :: rest => toUpperChar c :: lowerStr rest

/-- Python substring test `p in t` (contiguous, case-sensitive). -/
def containsSub (p : Str) : Str → Bool
  | [] => p.isEmpty
  | c :: rest => p.isPrefixOf (c :: rest) || containsSub p rest

/-- Case-insensitive literal prefix test: the region of `t` of the length of
`p` lowercases to `p` (`p` is given already lowercased, as `re` compiles an
`IGNORECASE` literal). -/
def isPrefixCI (p t : Str) : Bool := lowerStr (t.take p.length) = p

/-- Embeds `re.findall` of a case-insensitive literal `p` (given lowercased) over
`t`: the non-overlapping left-to-right occurrences, as the original-case
regions of `t`.  Fuel-driven so that the definition reduces in the kernel;
`fuel = t.length` always suffices since every step consumes at least one
character. -/
def scanCI (p : Str) : Nat → Str → List Str
  | _, [] => []
  | 0, _ => []
  | fuel + 1, c :: rest =>
    if p ≠ [] && isPrefixCI p (c :: rest) then
      (c :: rest).take p.length :: scanCI p fuel ((c :: rest).drop p.length)
    else
      scanCI p fuel rest

/-- Embeds `re.findall(re.escape(kwLower), t, re.IGNORECASE)` for a nonempty
lowercased literal. -/
def findallCI (p t : Str) : List Str := scanCI p t.length t

/-- Embeds `re.search(re.escape(p), t, re.IGNORECASE)` for a lowercased literal:
the first (leftmost) case-insensitive occurrence, as the original-case
region of `t`. -/
def searchCI (p : Str) : Str → Option Str
  | [] => none
  | c :: rest =>
    if p ≠ [] && isPrefixCI p (c :: rest) then some ((c :: rest).take p.length)
    else searchCI p rest

/-- Python `list(set(xs))`, embedded as first-occurrence deduplication (the
element set is exactly `set(xs)`; only the unspecified iteration order is
fixed). -/
def pySetAux (seen : List Str) : List Str → List Str
  | [] => []
  | x :: xs => if x ∈ seen then pySetAux seen xs else x :: pySetAux (x :: seen) xs

/-- Python `list(set(xs))` (see `pySetAux`). -/
def pySetList (xs : List Str) : List Str := pySetAux [] xs

/-- Decimal digits of a natural number, most significant first. -/
def natToStr (n : Nat) : Str := Nat.toDigits 10 n

/-- Python `', '.join`-style join. -/
def joinWith (sep : Str) (xs : List Str) : Str := List.intercalate sep xs

/-- The apostrophe character (written via its code point so that the
development contains no apostrophe inside string literals). -/
def apoChar : Char := Char.ofNat 39

/-! ### The regex fragments used by the extraction cascade

Each regex of the source is a fixed pattern of a simple shape; each shape is
embedded by a dedicated scanner with Python `re` leftmost, greedy,
non-overlapping semantics.  Where a quantifier is followed by a literal that
can never match inside the quantified class (e.g. `\s+` followed by a
letter), greedy maximal munch without backtracking is exact, and the
scanners exploit this; the one place backtracking across an ordered
alternation matters (the optional title group of `helpers.py`) is embedded
by trying the alternatives in the source's order. -/

/-- The tail `(.*?)(?:\.|$)` of the status/prognosis patterns: the shortest
run of non-newline characters up to a literal `.` or up to `$` (end of
input, or just before one final trailing newline — `re` default mode). -/
def dotCapture : Str → Option Str
  | [] => some []
  | '.' :: _ => some []
  | '\n' :: rest => if rest.isEmpty then some [] else none
  | c :: rest => (dotCapture rest).map (c :: ·)

/-- One anchored attempt of `lit\s+(.*?)(?:\.|$)` at the start of `u`
(greedy `\s+`: maximal munch is exact here, because a shorter whitespace run
would make the following `(.*?)(?:\.|$)` start at a whitespace character and
fail or succeed identically — see `dotCapture`'s cons case). -/
def tryLitWsDot (lit u : Str) : Option Str :=
  if lit.isPrefixOf u then
    let u1 := u.drop lit.length
    let ws := u1.takeWhile isSpaceChar
    if ws.isEmpty then none else dotCapture (u1.drop ws.length)
  else none

/-- Embeds `re.findall(lit + r"\s+(.*?)(?:\.|$)", t)[0]`: the capture of the
leftmost match (the source only ever uses `matches[0]`). -/
def reSearchLitWsDot (lit : Str) : Str → Option Str
  | [] => none
  | c :: rest =>
    match tryLitWsDot lit (c :: rest) with
    | some cap => some cap
    | none => reSearchLitWsDot lit rest

/-- Embeds `re.sub(r"^(have|feel|experience)", "", status)`: strip one leading
filler verb (ordered alternation, anchored, at most one replacement). -/
def stripStatusVerb (s : Str) : Str :=
  if (S "have").isPrefixOf s then s.drop 4
  else if (S "feel").isPrefixOf s then s.drop 4
  else if (S "experience").isPrefixOf s then s.drop 10
  else s

/-- The ordered status trigger literals of `_extract_current_status`
(each is used as `lit\s+(.*?)(?:\.|$)` over the lowercased text). -/
def statusPats : List Str :=
  [S "now only", S "currently", S "still", S "only", S "occasional", S "no longer"]

/-- The pattern loop of `_extract_current_status` (ner_extraction.py
lines 269-276): first pattern whose leftmost match has a nonempty cleaned
capture wins; the capture is stripped, a leading filler verb removed,
re-stripped, and capitalized. -/
def statusFromPats (tl : Str) : List Str → Str
  | [] => []
  | p :: ps =>
    match reSearchLitWsDot p tl with
    | some cap =>
      let status := strip (stripStatusVerb (strip cap))
      if status.isEmpty then statusFromPats tl ps else capitalizeStr status
    | none => statusFromPats tl ps

/-- Embeds `_extract_current_status` (ner_extraction.py lines 257-278). -/
def extractCurrentStatus (t : Str) : Str := statusFromPats (lowerStr t) statusPats

/-- The ordered prognosis trigger literals of `_extract_prognosis`. -/
def prognosisPats : List Str :=
  [S "full recovery", S "expected", S "prognosis", S "should recover", S "within"]

/-- The pattern loop of `_extract_prognosis` (ner_extraction.py lines
291-296): first pattern with a nonempty stripped capture wins, capitalized. -/
def prognosisFromPats (tl : Str) : List Str → Str
  | [] => []
  | p :: ps =>
    match reSearchLitWsDot p tl with
    | some cap =>
      let pr := strip cap
      if pr.isEmpty then prognosisFromPats tl ps else capitalizeStr pr
    | none => prognosisFromPats tl ps

/-- Embeds `_extract_prognosis` (ner_extraction.py lines 280-298). -/
def extractPrognosis (t : Str) : Str := prognosisFromPats (lowerStr t) prognosisPats

/-- The alternation-and-tail `(?:physiotherapy|physio|therapy)\s+sessions`
of the numeric-session treatment pattern: alternatives tried in the
source's order at a fixed position, each followed by `\s+sessions`; returns
the consumed characters and the remaining input. -/
def sessionsAltGo (u : Str) : List Str → Option (Str × Str)
  | [] => none
  | a :: alts =>
    if a.isPrefixOf u then
      let u1 := u.drop a.length
      let ws := u1.takeWhile isSpaceChar
      if !ws.isEmpty && (S "sessions").isPrefixOf (u1.drop ws.length) then
        some (a ++ ws ++ S "sessions", (u1.drop ws.length).drop 8)
      else sessionsAltGo u alts
    else sessionsAltGo u alts

/-- One anchored attempt of `\d+\s+(?:physiotherapy|physio|therapy)\s+sessions`
(greedy `\d+`/`\s+` maximal munch is exact: shorter runs would leave a
digit or a whitespace character where a letter is required). -/
def sessionsMatchAt (u : Str) : Option (Str × Str) :=
  let ds := u.takeWhile isDigitChar
  if ds.isEmpty then none else
  let u1 := u.drop ds.length
  let ws := u1.takeWhile isSpaceChar
  if ws.isEmpty then none else
  match sessionsAltGo (u1.drop ws.length) [S "physiotherapy", S "physio", S "therapy"] with
  | some (alt, rest) => some (ds ++ ws ++ alt, rest)
  | none => none

/-- Non-overlapping left-to-right scan driving
`re.findall(r"(\d+\s+(?:physiotherapy|physio|therapy)\s+sessions)", tl)`. -/
def sessionsScan : Nat → Str → List Str
  | _, [] => []
  | 0, _ => []
  | fuel + 1, c :: rest =>
    match sessionsMatchAt (c :: rest) with
    | some (m, after) => m :: sessionsScan fuel after
    | none => sessionsScan fuel rest

/-- Embeds `re.findall` of the numeric-session treatment pattern. -/
def sessionsFindall (tl : Str) : List Str := sessionsScan tl.length tl

/-- One anchored attempt of `(\d+)\s*physiotherapy\s*sessions`
(ner_extraction.py line 402), returning group 1 (the digit run). -/
def sessionsNumAt (u : Str) : Option Str :=
  let ds := u.takeWhile isDigitChar
  if ds.isEmpty then none else
  let u1 := u.drop ds.length
  let u2 := u1.drop (u1.takeWhile isSpaceChar).length
  if (S "physiotherapy").isPrefixOf u2 then
    let u3 := u2.drop 13
    let u4 := u3.drop (u3.takeWhile isSpaceChar).length
    if (S "sessions").isPrefixOf u4 then some ds else none
  else none

/-- Embeds `re.search(r"(\d+)\s*physiotherapy\s*sessions", tl)`: group 1 of the
leftmost match. -/
def sessionsNumSearch : Str → Option Str
  | [] => none
  | c :: rest =>
    match sessionsNumAt (c :: rest) with
    | some ds => some ds
    | none => sessionsNumSearch rest

/-- Non-overlapping scan for `re.findall(r"painkillers?", tl)` (greedy `s?`
takes the trailing `s` when present). -/
def pkScan : Nat → Str → List Str
  | _, [] => []
  | 0, _ => []
  | fuel + 1, c :: rest =>
    if (S "painkiller").isPrefixOf (c :: rest) then
      match (c :: rest).drop 10 with
      | 's' :: after => S "painkillers" :: pkScan fuel after
      | u1 => S "painkiller" :: pkScan fuel u1
    else pkScan fuel rest

/-- Embeds `re.findall(r"painkillers?", tl)`. -/
def pkFindall (tl : Str) : List Str := pkScan tl.length tl

/-! ### The patient-name capture `([A-Z][a-z]+(?:\s+[A-Z][a-z]+)*)`

Under `re.IGNORECASE`, `[A-Z]` and `[a-z]` both match any ASCII letter, so
the capture is a maximal letter run of length at least two, followed by
greedily repeated (whitespace run, letter run of length at least two)
groups. -/

/-- Maximal ASCII letter run (`[A-Z][a-z]+` under IGNORECASE is this run
when its length is at least 2). -/
def letterRun (u : Str) : Str := u.takeWhile isAlphaChar

/-- One `[A-Z][a-z]+` word (IGNORECASE): the maximal letter run if it has
length at least two, with the remaining input. -/
def nameWordAt (u : Str) : Option (Str × Str) :=
  let w := letterRun u
  if 2 ≤ w.length then some (w, u.drop w.length) else none

/-- The greedy `(?:\s+[A-Z][a-z]+)*` tail of the name capture. -/
def nameMore : Nat → Str → Str
  | 0, _ => []
  | fuel + 1, u =>
    let ws := u.takeWhile isSpaceChar
    if ws.isEmpty then []
    else
      match nameWordAt (u.drop ws.length) with
      | some (w, rest) => ws ++ w ++ nameMore fuel rest
      | none => []

/-- The full name capture group at a fixed position. -/
def nameCapture (u : Str) : Option Str :=
  match nameWordAt u with
  | some (w, rest) => some (w ++ nameMore rest.length rest)
  | none => none

/-- One anchored attempt of `lit` + (`\s+` when `wsReq`, else `\s*`) + the
name capture, all under IGNORECASE (`lit` given lowercased). -/
def nameTryAt (lit : Str) (wsReq : Bool) (u : Str) : Option Str :=
  if isPrefixCI lit u then
    let u1 := u.drop lit.length
    let ws := u1.takeWhile isSpaceChar
    if wsReq && ws.isEmpty then none
    else nameCapture (u1.drop ws.length)
  else none

/-- Leftmost match of a name pattern over the text
(`re.findall(...)[0]` in the source uses only the first match). -/
def nameSearch (lit : Str) (wsReq : Bool) : Str → Option Str
  | [] => none
  | c :: rest =>
    match nameTryAt lit wsReq (c :: rest) with
    | some cap => some cap
    | none => nameSearch lit wsReq rest

/-- The ordered name patterns of `_extract_patient_name`
(ner_extraction.py lines 231-237); the Bool records whether the pattern
requires at least one whitespace character before the capture
(`\s+` vs `\s*`). -/
def namePats : List (Str × Bool) :=
  [(S "patient:", false),
   (['i', apoChar, 'm'], true),
   (S "i am", true),
   (S "my name is", true),
   (S "this is", true)]

/-- The pattern loop of `_extract_patient_name`: the first pattern with any
match returns its first capture, stripped (even when the strip yields an
empty string, mirroring the source's unconditional `return`). -/
def nameFromPats (t : Str) : List (Str × Bool) → Option Str
  | [] => none
  | (lit, wsReq) :: ps =>
    match nameSearch lit wsReq t with
    | some cap => some (strip cap)
    | none => nameFromPats t ps

/-- Python `str.splitlines()` restricted to the terminators `\n`, `\r` and
`\r\n` (the only ones that can occur in the repository's ASCII texts). -/
def splitLinesGo : Nat → Str → List Str
  | _, [] => []
  | 0, _ => []
  | fuel + 1, t =>
    let line := t.takeWhile fun c => !(c = '\n' || c = '\r')
    match t.drop line.length with
    | [] => [line]
    | '\r' :: '\n' :: r => line :: splitLinesGo fuel r
    | _ :: r => line :: splitLinesGo fuel r

/-- Python `str.splitlines()` (see `splitLinesGo`). -/
def splitLines (t : Str) : List Str := splitLinesGo t.length t

/-- Python `str.split()` with no argument: split on whitespace runs,
dropping empty fields. -/
def splitWsGo : Nat → Str → List Str
  | _, [] => []
  | 0, _ => []
  | fuel + 1, t =>
    let t1 := t.dropWhile isSpaceChar
    match t1 with
    | [] => []
    | _ =>
      let w := t1.takeWhile fun c => !isSpaceChar c
      w :: splitWsGo fuel (t1.drop w.length)

/-- Python `str.split()` (see `splitWsGo`). -/
def pySplitWs (t : Str) : List Str := splitWsGo t.length t

/-- The per-line structural fallback of `_extract_patient_name`
(ner_extraction.py lines 246-252): a line whose stripped, lowercased form
starts with `patient:` contributes the stripped text after the first colon,
provided it has at least two whitespace-separated words and its first word
starts with an ASCII uppercase letter. -/
def nameLineCandidate (line : Str) : Option Str :=
  if (S "patient:").isPrefixOf (lowerStr (strip line)) then
    match List.splitOn ':' line with
    | _ :: p1 :: _ =>
      let candidate := strip p1
      match pySplitWs candidate with
      | (c0 :: _) :: _ :: _ => if isUpperChar c0 then some candidate else none
      | _ => none
    | _ => none
  else none

/-- The line loop of the fallback: first acceptable line wins. -/
def nameFromLines : List Str → Str
  | [] => []
  | l :: ls =>
    match nameLineCandidate l with
    | some c => c
    | none => nameFromLines ls

/-- Embeds `_extract_patient_name` (ner_extraction.py lines 229-254): ordered
inline patterns first, then the speaker-labelled-line fallback, else the
empty string.  No title stripping is performed here (contrast
`helpersExtractPatientName`). -/
def extractPatientName (t : Str) : Str :=
  match nameFromPats t namePats with
  | some n => n
  | none => nameFromLines (splitLines t)

/-- Tests whether `w` occurs at the head of `u` with `\b` word boundaries, `pre` being the
character just before `u` (if any). -/
def wordMatchAt (w : Str) (pre : Option Char) (u : Str) : Bool :=
  w.isPrefixOf u &&
  (match pre with | none => true | some p => !isWordChar p) &&
  (match u.drop w.length with | [] => true | d :: _ => !isWordChar d)

/-- Embeds `re.search(r"\b(w1|w2|...)\b", t)` as a Bool: some listed word occurs
with word boundaries. -/
def boundaryAny (ws : List Str) (pre : Option Char) : Str → Bool
  | [] => false
  | c :: rest => ws.any (fun w => wordMatchAt w pre (c :: rest)) || boundaryAny ws (some c) rest

/-! ### Medical vocabulary (ner_extraction.py `_load_medical_entities` and
the `enhanced_patterns` table of `_extract_medical_keywords`) -/

/-- Embeds `_MEDICAL_ENTITIES["symptoms"]`. -/
def kwSymptoms : List Str :=
  [S "pain", S "hurt", S "ache", S "sore", S "tender", S "stiff", S "swollen", S "bruised",
   S "headache", S "neck pain", S "back pain", S "shoulder pain", S "knee pain",
   S "chest pain", S "abdominal pain", S "stomach ache", S "nausea", S "vomiting",
   S "dizziness", S "fatigue", S "weakness", S "numbness", S "tingling", S "burning",
   S "cramping", S "spasms", S "stiffness", S "limited range", S "difficulty moving"]

/-- Embeds `_MEDICAL_ENTITIES["treatments"]`. -/
def kwTreatments : List Str :=
  [S "physiotherapy", S "physical therapy", S "physio", S "therapy sessions",
   S "medication", S "drugs", S "pills", S "tablets", S "injection", S "surgery",
   S "operation", S "procedure", S "treatment", S "rehabilitation", S "exercise",
   S "stretching", S "massage", S "heat therapy", S "ice therapy", S "rest",
   S "painkillers", S "anti-inflammatory", S "steroids", S "muscle relaxants"]

/-- Embeds `_MEDICAL_ENTITIES["diagnoses"]` (the apostrophe entry is built with
`apoChar`). -/
def kwDiagnoses : List Str :=
  [S "whiplash", S "injury", S "sprain", S "strain", S "fracture", S "dislocation",
   S "concussion", S "contusion", S "bruise", S "inflammation", S "arthritis",
   S "tendinitis", S "bursitis", S "herniated disc", S "pinched nerve", S "sciatica",
   S "carpal tunnel", S "tennis elbow", S "golfer" ++ [apoChar] ++ S "s elbow",
   S "frozen shoulder"]

/-- Embeds `_MEDICAL_ENTITIES["prognosis_indicators"]` (collected by the keyword
pass but never read by the merge in `extract_medical_info`). -/
def kwPrognosisIndicators : List Str :=
  [S "recovery", S "healing", S "improvement", S "better", S "worse", S "chronic",
   S "acute", S "temporary", S "permanent", S "expected", S "prognosis", S "outlook",
   S "full recovery", S "partial recovery", S "long-term", S "short-term",
   S "within", S "months", S "weeks", S "days", S "gradual", S "quick", S "slow"]

/-- The shapes of the `enhanced_patterns` regexes: a plain lowercase
literal, the numeric-session pattern, or `painkillers?`. -/
inductive EnhPat where
  | lit (p : Str)
  | sessions
  | painkillers

/-- Embeds `re.findall(pattern, text_lower)` for one enhanced pattern (the input
is the lowercased text, so the case-insensitive scanner coincides with
Python's case-sensitive scan there). -/
def enhFindall : EnhPat → Str → List Str
  | .lit p, tl => findallCI p tl
  | .sessions, tl => sessionsFindall tl
  | .painkillers, tl => pkFindall tl

/-- Embeds `enhanced_patterns["symptoms"]`. -/
def enhSymptomPats : List EnhPat :=
  [.lit (S "neck pain"), .lit (S "back pain"), .lit (S "head pain"), .lit (S "shoulder pain"),
   .lit (S "knee pain"), .lit (S "hip pain"), .lit (S "chest pain"), .lit (S "abdominal pain"),
   .lit (S "headache"), .lit (S "dizziness"), .lit (S "nausea"), .lit (S "vomiting"),
   .lit (S "fatigue"), .lit (S "stiffness"), .lit (S "swelling"), .lit (S "bruising"),
   .lit (S "numbness"), .lit (S "tingling"), .lit (S "burning sensation"),
   .lit (S "cramping"), .lit (S "spasms"), .lit (S "weakness")]

/-- Embeds `enhanced_patterns["treatments"]`. -/
def enhTreatmentPats : List EnhPat :=
  [.sessions, .lit (S "physiotherapy"), .lit (S "physical therapy"), .lit (S "physio"),
   .painkillers, .lit (S "medication"), .lit (S "drugs"), .lit (S "pills"),
   .lit (S "tablets"), .lit (S "surgery"), .lit (S "operation"), .lit (S "procedure"),
   .lit (S "injection"), .lit (S "rehabilitation"), .lit (S "exercise"),
   .lit (S "stretching"), .lit (S "massage"), .lit (S "heat therapy"),
   .lit (S "ice therapy"), .lit (S "ibuprofen"), .lit (S "anti-inflammatory"),
   .lit (S "steroids"), .lit (S "muscle relaxants"), .lit (S "rest")]

/-- Embeds `enhanced_patterns["diagnoses"]`. -/
def enhDiagnosisPats : List EnhPat :=
  [.lit (S "whiplash"), .lit (S "whiplash injury"), .lit (S "car accident injury"),
   .lit (S "motor vehicle accident"), .lit (S "sports injury"), .lit (S "fall injury"),
   .lit (S "sprain"), .lit (S "strain"), .lit (S "fracture"), .lit (S "dislocation"),
   .lit (S "concussion"), .lit (S "contusion"), .lit (S "bruise"), .lit (S "inflammation"),
   .lit (S "arthritis"), .lit (S "tendinitis"), .lit (S "bursitis"),
   .lit (S "herniated disc"), .lit (S "pinched nerve"), .lit (S "sciatica"),
   .lit (S "carpal tunnel"), .lit (S "tennis elbow"), .lit (S "frozen shoulder")]

/-! ### `_extract_medical_keywords` (ner_extraction.py lines 159-225) -/

/-- One match of the enhanced pass (lines 203-212): if the match is
nonempty and not all whitespace, re-locate it case-insensitively in the
original text, strip, and append unless an existing entry lowercases to it
(note the source compares the original-case candidate against the
lowercased entries). -/
def enhStep (t : Str) (acc : List Str) (m : Str) : List Str :=
  if !m.isEmpty && !(strip m).isEmpty then
    match searchCI (lowerStr m) t with
    | some reloc =>
      let clean := strip reloc
      if clean ∈ acc.map lowerStr then acc else acc ++ [clean]
    | none => acc
  else acc

/-- The enhanced pass for one category: fold the patterns in order, and for
each pattern its matches in order. -/
def enhCat (t tl : Str) (acc : List Str) (pats : List EnhPat) : List Str :=
  pats.foldl (fun a pat => (enhFindall pat tl).foldl (enhStep t) a) acc

/-- One match of the keyword pass (lines 221-223): append the original-case
occurrence unless an existing entry lowercases to it. -/
def kwStep (acc : List Str) (m : Str) : List Str :=
  if m ∈ acc.map lowerStr then acc else acc ++ [m]

/-- The keyword pass for one category (lines 215-223): for each vocabulary
keyword present in the lowercased text, fold its case-insensitive
occurrences in the original text. -/
def kwCat (t tl : Str) (acc : List Str) (kws : List Str) : List Str :=
  kws.foldl
    (fun a kw =>
      if containsSub (lowerStr kw) tl then (findallCI (lowerStr kw) t).foldl kwStep a else a)
    acc

/-- The four category lists produced by `_extract_medical_keywords`. -/
structure KwEnts where
  symptoms : List Str
  treatments : List Str
  diagnoses : List Str
  prognosisIndicators : List Str

/-- Embeds `_extract_medical_keywords` (ner_extraction.py lines 159-225): the
enhanced pass (symptoms, treatments, diagnoses) followed by the keyword
pass (all four categories), each category accumulating independently. -/
def extractMedicalKeywords (t : Str) : KwEnts :=
  let tl := lowerStr t
  let sy := kwCat t tl (enhCat t tl [] enhSymptomPats) kwSymptoms
  let tr := kwCat t tl (enhCat t tl [] enhTreatmentPats) kwTreatments
  let di := kwCat t tl (enhCat t tl [] enhDiagnosisPats) kwDiagnoses
  let pr := kwCat t tl [] kwPrognosisIndicators
  ⟨sy, tr, di, pr⟩

/-! ### `extract_medical_info` (ner_extraction.py lines 300-418) -/

/-- One aggregated entity of the BioBERT token-classification pipeline
(the fields read by the merge: `entity_group` and `word`). -/
structure BioEnt where
  group : Str
  word : Str

/-- Embeds `_extract_entities_biobert` (lines 112-128): the model is an oracle
`Str → List BioEnt`; `none` models the documented failure paths (load
failure, inference exception), which return the empty list.  Text longer
than 512 characters is truncated to its first 512 characters before the
model is consulted. -/
def extractEntitiesBiobert (statModel : Option (Str → List BioEnt)) (t : Str) : List BioEnt :=
  match statModel with
  | none => []
  | some f => f (if 512 < t.length then t.take 512 else t)

/-- The BioBERT merge loop (lines 328-332): a PER/ORG entity becomes the
patient name only while the name is still empty; otherwise an entity whose
word contains `pain` or `hurt` (lowercased) joins the symptom pool. -/
def bioFold (name : Str) (syms : List Str) : List BioEnt → Str × List Str
  | [] => (name, syms)
  | e :: rest =>
    if (e.group = S "PER" || e.group = S "ORG") && name.isEmpty then
      bioFold e.word syms rest
    else if containsSub (S "pain") (lowerStr e.word) || containsSub (S "hurt") (lowerStr e.word) then
      bioFold name (syms ++ [e.word]) rest
    else bioFold name syms rest

/-- The canonical Entity Record (§3 of the spec; the result dict of
`extract_medical_info`). -/
structure EntityRecord where
  Patient_Name : Str
  Symptoms : List Str
  Diagnosis : Str
  Treatment : List Str
  Current_Status : Str
  Prognosis : Str
deriving DecidableEq

/-- The zero-value Entity Record (lines 312-319 and 411-418). -/
def emptyEntityRecord : EntityRecord :=
  { Patient_Name := [], Symptoms := [], Diagnosis := [],
    Treatment := [], Current_Status := [], Prognosis := [] }

/-- A Python dict value appearing in an Entity Record. -/
inductive PyVal where
  | str (s : Str)
  | strList (l : List Str)

/-- The Entity Record as the Python dict it embeds: six fixed keys in the
source's insertion order. -/
def EntityRecord.toDict (r : EntityRecord) : List (Str × PyVal) :=
  [(S "Patient_Name", .str r.Patient_Name),
   (S "Symptoms", .strList r.Symptoms),
   (S "Diagnosis", .str r.Diagnosis),
   (S "Treatment", .strList r.Treatment),
   (S "Current_Status", .str r.Current_Status),
   (S "Prognosis", .str r.Prognosis)]

/-- The `try` body of `extract_medical_info` (ner_extraction.py lines
305-407); `statModel` is the BioBERT oracle.  The spaCy strategy (line 308)
is computed by the source and never read by the merge, so it is not a
parameter. -/
def extractMedicalInfoBody (statModel : Option (Str → List BioEnt))
    (t : Str) : EntityRecord :=
  let bioEnts := extractEntitiesBiobert statModel t
  let kw := extractMedicalKeywords t
  let name0 := extractPatientName t
  let nb := bioFold name0 [] bioEnts
  let name1 := nb.1
  let bioSyms := nb.2
  let syms1 := pySetList ((bioSyms ++ kw.symptoms).filterMap fun s =>
    if (strip s).isEmpty then none else some (strip s))
  let diagnosis0 : Str := match kw.diagnoses with | [] => [] | d :: _ => d
  let treat0 := pySetList (kw.treatments.filterMap fun s =>
    if (strip s).isEmpty then none else some (strip s))
  let status0 := extractCurrentStatus t
  let prog0 := extractPrognosis t
  let tl := lowerStr t
  let diagnosis1 :=
    if !diagnosis0.isEmpty then diagnosis0
    else if containsSub (S "whiplash") tl then S "Whiplash injury"
    else if containsSub (S "car accident") tl || containsSub (S "crash") tl then
      S "Whiplash injury"
    else if containsSub (S "neck") tl && containsSub (S "back") tl && containsSub (S "hurt") tl then
      S "Whiplash injury"
    else []
  let status1 :=
    if !status0.isEmpty then status0
    else if containsSub (S "occasional") tl && containsSub (S "back") tl then
      S "Occasional back pain"
    else if containsSub (S "occasional") tl && containsSub (S "pain") tl then
      S "Occasional pain"
    else if containsSub (S "now only") tl && containsSub (S "occasional") tl then
      S "Occasional back pain"
    else if containsSub (S "improving") tl || containsSub (S "better") tl then
      S "Improving"
    else []
  let prog1 :=
    if !prog0.isEmpty then prog0
    else if containsSub (S "full recovery") tl && containsSub (S "six months") tl then
      S "Full recovery expected within six months"
    else if containsSub (S "full recovery") tl then S "Full recovery expected"
    else if containsSub (S "recovery") tl && containsSub (S "months") tl then
      S "Recovery expected within months"
    else if containsSub (S "whiplash") tl || (containsSub (S "neck") tl && containsSub (S "back") tl) then
      S "Full recovery expected within six months"
    else []
  let syms2 :=
    if containsSub (S "neck") tl && containsSub (S "back") tl then
      let a := if S "Neck pain" ∈ syms1 then syms1 else syms1 ++ [S "Neck pain"]
      if S "Back pain" ∈ a then a else a ++ [S "Back pain"]
    else syms1
  let treat1 :=
    if containsSub (S "ten physiotherapy sessions") tl || containsSub (S "10 physiotherapy sessions") tl then
      treat0 ++ [S "10 physiotherapy sessions"]
    else if containsSub (S "physiotherapy sessions") tl then
      match sessionsNumSearch tl with
      | some num => treat0 ++ [num ++ S " physiotherapy sessions"]
      | none => treat0
    else treat0
  { Patient_Name := name1, Symptoms := syms2, Diagnosis := diagnosis1,
    Treatment := treat1, Current_Status := status1, Prognosis := prog1 }

/-- Embeds `extract_medical_info` (ner_extraction.py lines 300-418): the body
above under the catch-all `except` of line 409 (`raised` models an
exception escaping the strategy-internal handlers into it, which returns
the zero-value record). -/
def extract_medical_info (raised : Bool) (statModel : Option (Str → List BioEnt))
    (t : Str) : EntityRecord :=
  if raised then emptyEntityRecord else extractMedicalInfoBody statModel t

/-- Embeds `extract_entities` (line 420): backward-compatibility wrapper. -/
def extract_entities (raised : Bool) (statModel : Option (Str → List BioEnt))
    (t : Str) : EntityRecord :=
  extract_medical_info raised statModel t

/-! ### `summarize_text` (summarizer.py lines 54-159) -/

/-- Embeds `symptom_patterns` of `summarize_text` (single-group literal regexes). -/
def sumSymptomPats : List EnhPat :=
  [.lit (S "neck pain"), .lit (S "back pain"), .lit (S "head pain"), .lit (S "shoulder pain"),
   .lit (S "chest pain"), .lit (S "abdominal pain"), .lit (S "knee pain"), .lit (S "hip pain"),
   .lit (S "headache"), .lit (S "dizziness"), .lit (S "nausea"), .lit (S "fatigue"),
   .lit (S "stiffness"), .lit (S "swelling"), .lit (S "bruising"), .lit (S "numbness")]

/-- Embeds `treatment_patterns` of `summarize_text`. -/
def sumTreatmentPats : List EnhPat :=
  [.sessions, .painkillers, .lit (S "medication"), .lit (S "surgery"),
   .lit (S "operation"), .lit (S "injection"), .lit (S "rehabilitation"),
   .lit (S "exercise"), .lit (S "stretching"), .lit (S "massage"),
   .lit (S "heat therapy"), .lit (S "ice therapy")]

/-- The additional-phrase pass of `summarize_text` (lines 89-93 and
107-111): each match not already present (case-insensitively) in the fixed
base list contributes its capitalization.  The base list is not extended
during the pass (the source checks against `result[...]`, which it only
extends afterwards). -/
def sumAdditional (tl : Str) (base : List Str) (pats : List EnhPat) : List Str :=
  pats.foldl
    (fun acc pat =>
      (enhFindall pat tl).foldl
        (fun a m => if m ∈ base.map lowerStr then a else a ++ [capitalizeStr m]) acc)
    []

/-- The final cleanup of one list field (lines 153-155): keep entries that
are nonempty and not all-whitespace (entries are kept verbatim, not
re-stripped). -/
def cleanupList (xs : List Str) : List Str :=
  xs.filter fun i => !i.isEmpty && !(strip i).isEmpty

/-- Embeds `summarize_text` (summarizer.py lines 54-159).  The caller-provided
`ents` mapping is reassigned to `{}` when `None` (line 56) and never read
afterwards: the function always re-runs `extract_medical_info` on the text
(line 60) and recomputes the patient name when missing (lines 63-65). -/
def summarize_text (raised : Bool) (statModel : Option (Str → List BioEnt))
    (t : Str) (ents : Option EntityRecord) : EntityRecord :=
  let medicalInfo := extract_medical_info raised statModel t
  let patientName :=
    if medicalInfo.Patient_Name.isEmpty then extractPatientName t else medicalInfo.Patient_Name
  let tl := lowerStr t
  let sy := pySetList (medicalInfo.Symptoms ++ sumAdditional tl medicalInfo.Symptoms sumSymptomPats)
  let tr := pySetList (medicalInfo.Treatment ++ sumAdditional tl medicalInfo.Treatment sumTreatmentPats)
  let di :=
    if !medicalInfo.Diagnosis.isEmpty then medicalInfo.Diagnosis
    else if containsSub (S "whiplash") tl then S "Whiplash injury"
    else if containsSub (S "car accident") tl || containsSub (S "crash") tl then
      S "Motor vehicle accident injury"
    else if containsSub (S "fall") tl then S "Fall-related injury"
    else if containsSub (S "sports injury") tl then S "Sports injury"
    else []
  let st :=
    if !medicalInfo.Current_Status.isEmpty then medicalInfo.Current_Status
    else if containsSub (S "occasional") tl && containsSub (S "back") tl then
      S "Occasional back pain"
    else if containsSub (S "occasional") tl && containsSub (S "pain") tl then
      S "Occasional pain"
    else if containsSub (S "improving") tl || containsSub (S "better") tl then S "Improving"
    else if containsSub (S "no longer") tl && containsSub (S "pain") tl then S "Pain resolved"
    else []
  let pr :=
    if !medicalInfo.Prognosis.isEmpty then medicalInfo.Prognosis
    else if containsSub (S "full recovery") tl && containsSub (S "six months") tl then
      S "Full recovery expected within six months"
    else if containsSub (S "full recovery") tl then S "Full recovery expected"
    else if containsSub (S "recovery") tl && containsSub (S "months") tl then
      S "Recovery expected within months"
    else if containsSub (S "chronic") tl then S "Chronic condition"
    else []
  { Patient_Name := strip patientName,
    Symptoms := cleanupList sy,
    Diagnosis := strip di,
    Treatment := cleanupList tr,
    Current_Status := strip st,
    Prognosis := strip pr }

/-! ### Sentiment and intent (sentiment_intent.py) -/

/-- Embeds `ANXIOUS_KEYWORDS`. -/
def anxiousKeywords : List Str :=
  [S "worried", S "anxious", S "concerned", S "nervous", S "worry", S "scared", S "fearful",
   S "panic", S "stress", S "stressed", S "apprehensive", S "uneasy", S "distressed",
   S "afraid", S "terrified", S "frightened", S "alarmed", S "troubled", S "bothered"]

/-- Embeds `REASSURED_KEYWORDS` (the apostrophe entry is built with `apoChar`). -/
def reassuredKeywords : List Str :=
  [S "relief", S "relieved", S "great to hear", S "that" ++ [apoChar] ++ S "s good to hear",
   S "reassure", S "reassured", S "thank you doctor", S "comfortable", S "confident",
   S "optimistic", S "hopeful", S "better", S "improving", S "good news", S "reassuring",
   S "calm", S "peaceful", S "satisfied", S "content", S "pleased", S "grateful"]

/-- Embeds `NEUTRAL_KEYWORDS`. -/
def neutralKeywords : List Str :=
  [S "okay", S "fine", S "normal", S "usual", S "regular", S "standard", S "typical",
   S "average", S "moderate", S "manageable", S "acceptable", S "stable"]

/-- Embeds `SEEKING_REASSURANCE_KEYWORDS`. -/
def seekingReassuranceKeywords : List Str :=
  [S "will i", S "should i", S "worry about", S "affect me", S "does this mean",
   S "is it serious", S "how long", S "what if", S "concerned about", S "afraid",
   S "should i be worried", S "is this normal", S "what does this mean",
   S "am i okay", S "will this get better", S "is it dangerous"]

/-- Embeds `REPORTING_SYMPTOMS_KEYWORDS`. -/
def reportingSymptomsKeywords : List Str :=
  [S "pain", S "hurt", S "ache", S "symptom", S "suffered", S "injury", S "problem",
   S "issue", S "trouble", S "discomfort", S "feeling", S "experiencing", S "having",
   S "feels like", S "notice", S "develop", S "occur", S "appear"]

/-- Embeds `EXPRESSING_CONCERN_KEYWORDS`. -/
def expressingConcernKeywords : List Str :=
  [S "concern", S "worry", S "anxious", S "nervous", S "scared", S "fearful",
   S "bothered", S "troubled", S "distressed", S "upset", S "frightened"]

/-- The interrogative alternation of the question-pattern check
(sentiment_intent.py line 152). -/
def interrogativeWords : List Str :=
  [S "what", S "how", S "when", S "where", S "why", S "is", S "are", S "do", S "does",
   S "can", S "could", S "would", S "should"]

/-- Keyword score: the number of listed keywords occurring as substrings of
the lowercased text (`sum(1 for keyword in KEYWORDS if keyword in text_lower)`). -/
def kwScore (kws : List Str) (tl : Str) : Nat :=
  (kws.filter fun k => containsSub k tl).length

/-- Embeds `_classify_sentiment_transformer` (lines 97-132).  The BERT pipeline is
an oracle returning the best-scoring (label, score) pair — the score in
exact thousandths, comparing with the 0.6 threshold as 600 — or `none` for
the failure paths (model unavailable, malformed result, inference
exception); it is consulted on the stripped text truncated to 512
characters.  The
label-to-taxonomy mapping and the 0.6 confidence threshold are embedded
from the source; a label matching none of the substring tests falls through
to `None` exactly as the source's dangling `if`/`elif` chain does. -/
def classifySentimentTransformer (loaded : Bool) (bert : Str → Option (Str × Nat))
    (t : Str) : Option Str :=
  if !loaded then none else
  let t1 := strip t
  let t2 := if 512 < t1.length then t1.take 512 else t1
  match bert t2 with
  | none => none
  | some (label, score) =>
    let l := lowerStr label
    if 600 < score then
      if containsSub (S "positive") l || containsSub (S "joy") l then some (S "Reassured")
      else if containsSub (S "negative") l || containsSub (S "sadness") l
              || containsSub (S "anger") l then some (S "Anxious")
      else if containsSub (S "neutral") l then some (S "Neutral")
      else none
    else none

/-- The rule-based fallback of `classify_utterance_sentiment`
(lines 166-180). -/
def classifySentimentRuleBased (t : Str) : Str :=
  let tl := lowerStr t
  let anxiousScore := kwScore anxiousKeywords tl
  let reassuredScore := kwScore reassuredKeywords tl
  let neutralScore := kwScore neutralKeywords tl
  if anxiousScore > reassuredScore && anxiousScore > neutralScore then S "Anxious"
  else if reassuredScore > neutralScore then S "Reassured"
  else S "Neutral"

/-- Embeds `classify_utterance_sentiment` (lines 159-180): the transformer result
is used when truthy (a nonempty string), else the keyword-scoring rule. -/
def classify_utterance_sentiment (loaded : Bool) (bert : Str → Option (Str × Nat))
    (t : Str) : Str :=
  match classifySentimentTransformer loaded bert t with
  | some s => if s.isEmpty then classifySentimentRuleBased t else s
  | none => classifySentimentRuleBased t

/-- Embeds `_classify_intent_rule_based` (lines 135-156). -/
def classifyIntentRuleBased (t : Str) : Str :=
  let tl := lowerStr t
  if seekingReassuranceKeywords.any (containsSub · tl) then S "Seeking reassurance"
  else if expressingConcernKeywords.any (containsSub · tl) then S "Expressing concern"
  else if reportingSymptomsKeywords.any (containsSub · tl) then S "Reporting symptoms"
  else if (strip t).getLast? = some '?' || boundaryAny interrogativeWords none tl then
    S "Seeking reassurance"
  else S "Reporting symptoms"

/-- Embeds `classify_intent` (lines 183-185). -/
def classify_intent (t : Str) : Str := classifyIntentRuleBased t

/-- The result of `analyze_patient_dialogue` (confidence kept in exact
hundredths: the only values in play are the literals 0.9, 0.7 and the 0.5
default, and the only consumers are the comparisons with 0.8 and 0.5 —
embedded as 80 and 50 — and a two-decimal rendering). -/
structure SentAnalysis where
  Sentiment : Str
  Intent : Str
  confidence : Nat
  analysisMethod : Str

/-- Embeds `analyze_patient_dialogue` (lines 188-205): `loaded` embeds the
truthiness of the `_SENTIMENT_MODEL` module global after the classify call
(0.9/"BERT" when a model handle exists, else 0.7/"rule_based"). -/
def analyze_patient_dialogue (loaded : Bool) (bert : Str → Option (Str × Nat))
    (t : Str) : SentAnalysis :=
  { Sentiment := classify_utterance_sentiment loaded bert t,
    Intent := classify_intent t,
    confidence := if loaded then 90 else 70,
    analysisMethod := if loaded then S "BERT" else S "rule_based" }

/-! ### `generate_soap` (soap_generator.py lines 10-227) -/

/-- Embeds `f"{confidence:.2f}"`.  Confidences are embedded in exact hundredths
(the only values in play are the literals 0.9, 0.7 and the 0.5 default):
two decimal places, no rounding ambiguity. -/
def formatConfidence (n : Nat) : Str :=
  natToStr (n / 100) ++ S "." ++ (if n % 100 < 10 then S "0" else []) ++ natToStr (n % 100)

/-- Subjective section of the SOAP note. -/
structure SoapSubjective where
  Patient_Name : Str
  Chief_Complaint : Str
  History_of_Present_Illness : Str
  Patient_Sentiment : Str
  Patient_Intent : Str
deriving DecidableEq

/-- Objective section of the SOAP note. -/
structure SoapObjective where
  Physical_Exam : Str
  Observations : Str
  Vital_Signs : Str
  Assessment_Confidence : Str
deriving DecidableEq

/-- Assessment section of the SOAP note. -/
structure SoapAssessment where
  Diagnosis : Str
  Severity : Str
  Prognosis : Str
  Clinical_Notes : Str
deriving DecidableEq

/-- Plan section of the SOAP note. -/
structure SoapPlan where
  Treatment : List Str
  Follow_Up : List Str
  Patient_Education : Str
  Next_Steps : Str
deriving DecidableEq

/-- Metadata section of the SOAP note. -/
structure SoapMetadata where
  Text_Length : Nat
  Keywords_Extracted : Nat
  Symptoms_Identified : Nat
  Treatments_Identified : Nat
  Analysis_Method : Str
  Processing_Timestamp : Str
deriving DecidableEq

/-- The four-section SOAP note plus metadata. -/
structure SoapNote where
  Subjective : SoapSubjective
  Objective : SoapObjective
  Assessment : SoapAssessment
  Plan : SoapPlan
  Metadata : SoapMetadata
deriving DecidableEq

/-- Embeds `generate_soap` (soap_generator.py lines 10-227), for the calls made by
`process_transcript`, where all five arguments are supplied: the
`None`-defaulting of absent arguments (lines 30-37) is not exercised, and
`summary`/`entities` always carry the six record keys, so the dict `.get`
defaults (`"Not recorded"`, `Chief_Complaint` absent from the summarizer's
record, sentiment defaults) reduce to the truthiness choices embedded
below. -/
def generate_soap (t : Str) (entities summary : EntityRecord) (sa : SentAnalysis)
    (keywords : List Str) : SoapNote :=
  let patientName := if !summary.Patient_Name.isEmpty then summary.Patient_Name
    else entities.Patient_Name
  let symptoms := if !summary.Symptoms.isEmpty then summary.Symptoms else entities.Symptoms
  let diagnosis := if !summary.Diagnosis.isEmpty then summary.Diagnosis else entities.Diagnosis
  let treatments := if !summary.Treatment.isEmpty then summary.Treatment else entities.Treatment
  let currentStatus := if !summary.Current_Status.isEmpty then summary.Current_Status
    else entities.Current_Status
  let prognosis := if !summary.Prognosis.isEmpty then summary.Prognosis else entities.Prognosis
  let sentiment := sa.Sentiment
  let intent := sa.Intent
  let confidence := sa.confidence
  -- Subjective (lines 52-82); the summarizer's record has no
  -- `Chief_Complaint` key, so `summary.get("Chief_Complaint", "")` is `""`.
  let cc1 := if !symptoms.isEmpty then
      S "Patient reports " ++ joinWith (S ", ") (symptoms.take 3)
    else []
  let chiefComplaint := if cc1.isEmpty then
      S "Patient consultation - detailed history to be obtained"
    else cc1
  let hpi :=
    (if !chiefComplaint.isEmpty then [S "Chief complaint: " ++ chiefComplaint] else []) ++
    (if !symptoms.isEmpty then [S "Symptoms reported: " ++ joinWith (S ", ") symptoms] else []) ++
    (if !currentStatus.isEmpty then [S "Current status: " ++ currentStatus] else []) ++
    (if sentiment = S "Anxious" then [S "Patient appears anxious about condition"]
     else if sentiment = S "Reassured" then [S "Patient appears reassured by discussion"]
     else []) ++
    (if intent = S "Seeking reassurance" then [S "Patient seeking reassurance about condition"]
     else if intent = S "Expressing concern" then [S "Patient expressing concerns about symptoms"]
     else [])
  let historyOfPresentIllness :=
    if hpi.isEmpty then S "History to be obtained" else joinWith (S ". ") hpi
  -- Objective (lines 84-127)
  let tl := lowerStr t
  let pe :=
    (if containsSub (S "pain") tl || symptoms.any (fun s => containsSub (S "pain") (lowerStr s))
     then [S "Patient reports pain in affected areas"] else []) ++
    (if containsSub (S "stiffness") tl || containsSub (S "stiff") tl
     then [S "Stiffness noted in affected areas"] else []) ++
    (if containsSub (S "swelling") tl || containsSub (S "swollen") tl
     then [S "Swelling may be present"] else []) ++
    (if containsSub (S "bruising") tl || containsSub (S "bruise") tl
     then [S "Bruising may be present"] else [])
  let physicalExamFindings :=
    if pe.isEmpty then
      S "Physical examination findings to be documented" ::
      (if containsSub (S "whiplash") tl || containsSub (S "car accident") tl then
        [S "Cervical and lumbar spine range of motion to be assessed"] else [])
    else pe
  let obs0 :=
    (if sentiment = S "Anxious" then [S "Patient appears anxious during consultation"]
     else if sentiment = S "Reassured" then [S "Patient appears reassured and cooperative"]
     else []) ++
    (if !currentStatus.isEmpty && containsSub (S "improving") (lowerStr currentStatus)
     then [S "Patient reports improvement in condition"]
     else if !currentStatus.isEmpty && containsSub (S "occasional") (lowerStr currentStatus)
     then [S "Patient reports occasional symptoms"] else [])
  let obs1 := if obs0.isEmpty then [S "Patient cooperative during consultation"] else obs0
  let observations := obs1 ++
    (if !treatments.isEmpty then
      [S "Patient has undergone: " ++ joinWith (S ", ") (treatments.take 3)] else [])
  -- Assessment (lines 129-154)
  let assessmentDiagnosis :=
    if diagnosis.isEmpty then S "Diagnosis pending further evaluation" else diagnosis
  let severityIndicators :=
    (if !currentStatus.isEmpty && containsSub (S "occasional") (lowerStr currentStatus)
     then [S "mild"] else []) ++
    (if containsSub (S "improving") tl
        || (!currentStatus.isEmpty && containsSub (S "improving") (lowerStr currentStatus))
     then [S "improving"] else []) ++
    (if containsSub (S "severe") tl || containsSub (S "severe") (lowerStr (joinWith (S " ") symptoms))
     then [S "severe"] else []) ++
    (if containsSub (S "chronic") tl || containsSub (S "chronic") (lowerStr (joinWith (S " ") symptoms))
     then [S "chronic"] else [])
  let severity :=
    if severityIndicators.isEmpty then S "moderate" else joinWith (S ", ") severityIndicators
  let assessmentNotes :=
    (if !prognosis.isEmpty then [S "Prognosis: " ++ prognosis] else []) ++
    (if 80 < confidence then [S "High confidence in assessment"]
     else if confidence < 50 then [S "Assessment based on limited information"] else [])
  -- Plan (lines 156-186)
  let pt1 :=
    if containsSub (S "whiplash") (lowerStr assessmentDiagnosis) then
      let a := if treatments.any (fun x =>
          containsSub (S "physiotherapy") (lowerStr x) || containsSub (S "physio") (lowerStr x))
        then treatments else treatments ++ [S "Physiotherapy sessions recommended"]
      if a.any (fun x => containsSub (S "pain") (lowerStr x)) then a
      else a ++ [S "Pain management as needed"]
    else treatments
  let planTreatments :=
    if pt1.isEmpty then [S "Treatment plan to be determined based on assessment"] else pt1
  let followUpPlan :=
    (if !prognosis.isEmpty && containsSub (S "months") prognosis then
      [S "Follow-up in 4-6 weeks to assess progress"]
     else if containsSub (S "improving") (lowerStr severity) then
      [S "Follow-up in 2-4 weeks if symptoms persist"]
     else [S "Return if symptoms worsen or persist"]) ++
    (if sentiment = S "Anxious" then [S "Patient education and reassurance provided"]
     else if intent = S "Seeking reassurance" then
      [S "Address patient concerns and provide reassurance"]
     else [])
  { Subjective :=
      { Patient_Name := patientName,
        Chief_Complaint := chiefComplaint,
        History_of_Present_Illness := historyOfPresentIllness,
        Patient_Sentiment := sentiment,
        Patient_Intent := intent },
    Objective :=
      { Physical_Exam := joinWith (S ". ") physicalExamFindings,
        Observations := joinWith (S ". ") observations,
        Vital_Signs := S "To be documented during physical examination",
        Assessment_Confidence := formatConfidence confidence },
    Assessment :=
      { Diagnosis := assessmentDiagnosis,
        Severity := severity,
        Prognosis := if prognosis.isEmpty then S "Prognosis to be determined" else prognosis,
        Clinical_Notes :=
          if assessmentNotes.isEmpty then S "Standard assessment completed"
          else joinWith (S ". ") assessmentNotes },
    Plan :=
      { Treatment := planTreatments,
        Follow_Up := followUpPlan,
        Patient_Education := S "Patient education provided as appropriate",
        Next_Steps := S "Continue current treatment plan and monitor progress" },
    Metadata :=
      { Text_Length := t.length,
        Keywords_Extracted := keywords.length,
        Symptoms_Identified := symptoms.length,
        Treatments_Identified := treatments.length,
        Analysis_Method := sa.analysisMethod,
        Processing_Timestamp := S "Generated from NLP pipeline" } }

/-! ### Preprocessing and the pipeline orchestrator
(utils/preprocessing.py, services/nlp_pipeline.py) -/

/-- Embeds `text.replace("\r\n", " ")`. -/
def replaceCRLF : Nat → Str → Str
  | _, [] => []
  | 0, t => t
  | fuel + 1, '\r' :: '\n' :: rest => ' ' :: replaceCRLF fuel rest
  | fuel + 1, c :: rest => c :: replaceCRLF fuel rest

/-- Embeds `text.replace("\n", " ")`. -/
def replaceNL (t : Str) : Str := t.map fun c => if c = '\n' then ' ' else c

/-- Embeds `re.sub(r"\s+", " ", text)`: collapse each whitespace run to one space. -/
def collapseWs : Nat → Str → Str
  | _, [] => []
  | 0, t => t
  | fuel + 1, c :: rest =>
    if isSpaceChar c then ' ' :: collapseWs fuel (rest.dropWhile isSpaceChar)
    else c :: collapseWs fuel rest

/-- Embeds `clean_text` (utils/preprocessing.py lines 5-9). -/
def clean_text (t : Str) : Str :=
  let t1 := replaceNL (replaceCRLF t.length t)
  strip (collapseWs t1.length t1)

/-- The `sentiment` entry of the pipeline's result mapping. -/
structure SentimentOut where
  session : Str
  intent : Str
deriving DecidableEq

/-- The result mapping of `process_transcript` (nlp_pipeline.py lines
77-83). -/
structure PipelineOut where
  entities : EntityRecord
  summary : EntityRecord
  keywords : List Str
  sentiment : SentimentOut
  soap : SoapNote

/-- Embeds `process_transcript` (nlp_pipeline.py lines 51-83).  `kwModel` is the
spaCy noun-chunk keyword oracle of `_extract_keywords` (lines 9-48): `none`
models every failure path there, which returns `[]`; `some f` models a
loaded model, whose filtered chunk list is the oracle's output.  The
`split_sentences` result (line 53) is computed by the source and never
used.  The sentiment tuple (line 66) and the result mapping mirror the
source. -/
def process_transcript (raised : Bool) (statModel : Option (Str → List BioEnt))
    (loaded : Bool) (bert : Str → Option (Str × Nat))
    (kwModel : Option (Str → List Str)) (t : Str) : PipelineOut :=
  let textClean := clean_text t
  let entities := extract_entities raised statModel textClean
  let summary := summarize_text raised statModel textClean (some entities)
  let keywords := match kwModel with | none => [] | some f => f textClean
  let sa := analyze_patient_dialogue loaded bert textClean
  let soap := generate_soap textClean entities summary sa keywords
  { entities := entities, summary := summary, keywords := keywords,
    sentiment := { session := sa.Sentiment, intent := sa.Intent }, soap := soap }

/-! ### `extract_patient_name` of utils/helpers.py (lines 10-52)

Unlike the extractor of ner_extraction.py used by the cascade, this one has
optional title groups in its patterns and strips one leading title token
from the captured name.  Ordered regex alternation with backtracking into
the subsequent components is embedded in continuation-passing style:
`altThen` tries the alternatives in the source's order, each followed by
the continuation, taking the first overall success — exactly the `re`
backtracking order for these patterns. -/

/-- Ordered alternation followed by a continuation. -/
def altThen (alts : List Str) (k : Str → Option Str) (u : Str) : Option Str :=
  match alts with
  | [] => none
  | a :: rest =>
    match (if isPrefixCI a u then k (u.drop a.length) else none) with
    | some r => some r
    | none => altThen rest k u

/-- Embeds `\s*` then continuation (maximal munch; exact because every
continuation here starts with a non-whitespace requirement). -/
def wsStarThen (k : Str → Option Str) (u : Str) : Option Str :=
  k (u.drop (u.takeWhile isSpaceChar).length)

/-- Embeds `\s+` then continuation. -/
def wsPlusThen (k : Str → Option Str) (u : Str) : Option Str :=
  let ws := u.takeWhile isSpaceChar
  if ws.isEmpty then none else k (u.drop ws.length)

/-- The title alternatives `Mr\.?|Mrs\.?|Ms\.?|Dr\.?` in `re` attempt
order (each `\.?` greedily tries the dotted form first). -/
def titleOpts : List Str :=
  [S "mr.", S "mr", S "mrs.", S "mrs", S "ms.", S "ms", S "dr.", S "dr"]

/-- Embeds `(?:Mr\.?|Mrs\.?|Ms\.?|Dr\.?)?\s*` then continuation: each title
alternative in order, then the group-absent branch. -/
def titleOptThen (k : Str → Option Str) (u : Str) : Option Str :=
  match altThen titleOpts (wsStarThen k) u with
  | some r => some r
  | none => wsStarThen k u

/-- Embeds `,?` then continuation (greedy, with the backtrack to the comma-less
branch). -/
def commaOptThen (k : Str → Option Str) (u : Str) : Option Str :=
  match u with
  | ',' :: rest =>
    (match k rest with
     | some r => some r
     | none => k u)
  | _ => k u

/-- The single-word capture `([A-Z][a-z]+)` of the `Call me` pattern. -/
def singleWordCapture (u : Str) : Option Str := (nameWordAt u).map Prod.fst

/-- Embeds `I'?m|I am` in attempt order. -/
def imAlts : List Str := [['i', apoChar, 'm'], S "im", S "i am"]

/-- Embeds `My name is|My name's` in attempt order. -/
def myNameAlts : List Str :=
  [S "my name is", S "my name" ++ [apoChar] ++ S "s"]

/-- The seven helper patterns (helpers.py lines 16-37), each as an anchored
attempt at a position of the text. -/
def helpersPatterns : List (Str → Option Str) :=
  [altThen imAlts (wsPlusThen (titleOptThen nameCapture)),
   altThen myNameAlts (wsPlusThen (titleOptThen nameCapture)),
   altThen [S "this is"] (wsPlusThen (titleOptThen nameCapture)),
   altThen [S "call me", S "you can call me"] (wsPlusThen singleWordCapture),
   altThen [S "i go by"] (wsPlusThen (titleOptThen nameCapture)),
   altThen [S "patient:", S "pt:"] (wsStarThen (altThen imAlts (wsPlusThen (titleOptThen nameCapture)))),
   altThen [S "hi", S "hello", S "hey"] (commaOptThen (wsStarThen (altThen imAlts (wsPlusThen (titleOptThen nameCapture)))))]

/-- Leftmost match of one anchored attempt over the text positions. -/
def searchAttempt (att : Str → Option Str) : Str → Option Str
  | [] => none
  | c :: rest =>
    match att (c :: rest) with
    | some r => some r
    | none => searchAttempt att rest

/-- The alternative loop of `helpersStripTitle`. -/
def helpersStripTitleGo (name : Str) : List Str → Str
  | [] => name
  | o :: os =>
    if isPrefixCI o name then (name.drop o.length).dropWhile isSpaceChar
    else helpersStripTitleGo name os

/-- Embeds `re.sub(r'^(Mr\.?|Mrs\.?|Ms\.?|Dr\.?)\s*', '', name, flags=re.IGNORECASE)`:
strip one leading title and the following whitespace. -/
def helpersStripTitle (name : Str) : Str :=
  helpersStripTitleGo name titleOpts

/-- The pattern loop of helpers' `extract_patient_name` (lines 40-52): the
first pattern with a match whose stripped, title-stripped capture has
length above one wins; `none` mirrors the source's `None` (also returned
for falsy input text). -/
def helpersGo (t : Str) : List (Str → Option Str) → Option Str
  | [] => none
  | p :: ps =>
    match searchAttempt p t with
    | some m =>
      let name := helpersStripTitle (strip m)
      if !name.isEmpty && 1 < name.length then some name else helpersGo t ps
    | none => helpersGo t ps

/-- Embeds `extract_patient_name` (utils/helpers.py lines 10-52). -/
def helpersExtractPatientName (t : Str) : Option Str :=
  if t.isEmpty then none else helpersGo t helpersPatterns

/-! ### Goodness of record entries -/

/-- A good entry: nonempty and fixed by `str.strip()` (i.e. trimmed). -/
def goodB (s : Str) : Bool := !s.isEmpty && strip s == s

/-! ### Goodness invariants of the keyword-extraction folds -/

/-- Goodness requirement on an enhanced pattern: literal patterns must be
good strings (the non-literal scanners produce good matches by
construction). -/
def enhPatGoodB : EnhPat → Bool
  | .lit p => goodB p
  | .sessions => true
  | .painkillers => true

/-! ### Concrete inputs used by the claims -/

/-- The end-to-end transcript of the spec's E2E scenario (§8). -/
def e2eText : Str := S "Doctor: How are you feeling today? Patient: I had a car accident. My neck and back hurt a lot for four weeks. Doctor: Did you receive treatment? Patient: Yes, I had ten physiotherapy sessions, and now I only have occasional back pain."

/-- A transcript whose session phrase is matched both by the keyword pass
and by the enhanced treatment fallback. -/
def dupText : Str := S "I had 10 physiotherapy sessions."

/-- A transcript introducing the patient with a title token. -/
def titleText : Str := S "My name is Mr Smith"

/-- A transcript of more than 512 characters whose extraction cues all
occur after character 512. -/
def c7Text : Str :=
  List.replicate 513 'a' ++
    S " whiplash my neck and back occasional 10 physiotherapy sessions"

/-- A word of the captured name is one of the four title tokens (with or
without the period, which the capture class cannot include). -/
def hasTitleToken (s : Str) : Bool :=
  (pySplitWs s).any fun w =>
    w ∈ [S "Mr", S "Mr.", S "Mrs", S "Mrs.", S "Ms", S "Ms.", S "Dr", S "Dr."]

/-! ## Lemmas and claim theorems -/

-- Sanity checks on the primitives (concrete evaluations).
example : lowerStr (S "Back Pain") = S "back pain" := by decide

example : strip (S "  neck pain  ") = S "neck pain" := by decide

example : findallCI (S "pain") (S "Pain and pain") = [S "Pain", S "pain"] := by decide

example : searchCI (S "back pain") (S "My Back Pain story") = some (S "Back Pain") := by decide

example : containsSub (S "ache") (S "headache") = true := by decide

example : pySetList [S "a", S "b", S "a"] = [S "a", S "b"] := by decide

example : capitalizeStr (S "occasional BACK pain") = S "Occasional back pain" := by decide

-- Sanity checks on the regex fragments.
example : extractCurrentStatus
    (S "now I only have occasional back pain.") = S "Occasional back pain" := by decide

example : sessionsFindall (S "i had 10 physiotherapy sessions today") =
    [S "10 physiotherapy sessions"] := by decide

example : sessionsFindall (S "i had ten physiotherapy sessions") = [] := by decide

example : sessionsNumSearch (S "had 12 physiotherapy sessions") = some (S "12") := by decide

example : pkFindall (S "painkillers and a painkiller") =
    [S "painkillers", S "painkiller"] := by decide

example : extractPatientName (S "My name is Mr Smith") = S "Mr Smith" := by decide

example : extractPatientName (S "Patient: I had a crash. Patient: Yes, sir") = S "Yes" := by decide

example : extractPatientName (S "nothing here") = S "" := by decide

-- Sanity checks for the helpers extractor.
example : helpersExtractPatientName (S "My name is Mr Smith") = some (S "Smith") := by decide

example : helpersExtractPatientName (S "Hello, I am Dr. John Smith") = some (S "John Smith") := by
  decide

example : helpersExtractPatientName (S "no names at all") = none := by decide

/-! ### Character-level lemmas -/

theorem char_le_iff {c d : Char} : c ≤ d ↔ c.toNat ≤ d.toNat := by
  rw [Char.le_def]; exact Iff.rfl

theorem char_toNat_inj {c d : Char} (h : c.toNat = d.toNat) : c = d :=
  Char.ext (UInt32.toNat.inj h)

theorem char_eq_iff {c d : Char} : c = d ↔ c.toNat = d.toNat :=
  ⟨fun h => h ▸ rfl, char_toNat_inj⟩

theorem char_toNat_ofNat {n : Nat} (h : n < 55296) : (Char.ofNat n).toNat = n := by
  rw [Char.ofNat, dif_pos (Or.inl h)]; rfl

theorem isUpperChar_iff {c : Char} : isUpperChar c = true ↔ 65 ≤ c.toNat ∧ c.toNat ≤ 90 := by
  simp [isUpperChar, char_le_iff]

theorem isLowerChar_iff {c : Char} : isLowerChar c = true ↔ 97 ≤ c.toNat ∧ c.toNat ≤ 122 := by
  simp [isLowerChar, char_le_iff]

theorem isDigitChar_iff {c : Char} : isDigitChar c = true ↔ 48 ≤ c.toNat ∧ c.toNat ≤ 57 := by
  simp [isDigitChar, char_le_iff]

theorem isSpaceChar_iff {c : Char} :
    isSpaceChar c = true ↔ c.toNat = 32 ∨ c.toNat = 9 ∨ c.toNat = 10 ∨ c.toNat = 13 ∨
      c.toNat = 11 ∨ c.toNat = 12 := by
  simp [isSpaceChar, char_eq_iff]; tauto

theorem toNat_toLowerChar_of_upper {c : Char} (h : isUpperChar c = true) :
    (toLowerChar c).toNat = c.toNat + 32 := by
  have hb := (isUpperChar_iff.mp h).2
  rw [toLowerChar, if_pos h, char_toNat_ofNat (by omega)]

theorem toLowerChar_of_not_upper {c : Char} (h : ¬ isUpperChar c = true) :
    toLowerChar c = c := by
  rw [toLowerChar, if_neg h]

theorem toNat_toUpperChar_of_lower {c : Char} (h : isLowerChar c = true) :
    (toUpperChar c).toNat = c.toNat - 32 := by
  have hb := (isLowerChar_iff.mp h).2
  rw [toUpperChar, if_pos h, char_toNat_ofNat (by omega)]

theorem isSpaceChar_toLowerChar (c : Char) : isSpaceChar (toLowerChar c) = isSpaceChar c := by
  by_cases h : isUpperChar c = true
  · have hb := isUpperChar_iff.mp h
    have h1 : isSpaceChar (toLowerChar c) = false := by
      rw [Bool.eq_false_iff]
      intro hs
      have := isSpaceChar_iff.mp hs
      rw [toNat_toLowerChar_of_upper h] at this
      omega
    have h2 : isSpaceChar c = false := by
      rw [Bool.eq_false_iff]
      intro hs
      have := isSpaceChar_iff.mp hs
      omega
    rw [h1, h2]
  · rw [toLowerChar_of_not_upper h]

theorem isSpaceChar_toUpperChar (c : Char) : isSpaceChar (toUpperChar c) = isSpaceChar c := by
  by_cases h : isLowerChar c = true
  · have hb := isLowerChar_iff.mp h
    have h1 : isSpaceChar (toUpperChar c) = false := by
      rw [Bool.eq_false_iff]
      intro hs
      have := isSpaceChar_iff.mp hs
      rw [toNat_toUpperChar_of_lower h] at this
      omega
    have h2 : isSpaceChar c = false := by
      rw [Bool.eq_false_iff]
      intro hs
      have := isSpaceChar_iff.mp hs
      omega
    rw [h1, h2]
  · rw [toUpperChar, if_neg h]

theorem isUpperChar_toLowerChar (c : Char) : isUpperChar (toLowerChar c) = false := by
  by_cases h : isUpperChar c = true
  · have hb := isUpperChar_iff.mp h
    rw [Bool.eq_false_iff]
    intro hu
    have := isUpperChar_iff.mp hu
    rw [toNat_toLowerChar_of_upper h] at this
    omega
  · rw [toLowerChar_of_not_upper h]
    exact Bool.eq_false_iff.mpr h

theorem toLowerChar_idem (c : Char) : toLowerChar (toLowerChar c) = toLowerChar c :=
  toLowerChar_of_not_upper (by rw [isUpperChar_toLowerChar c]; exact Bool.false_ne_true)

theorem isDigitChar_not_space {c : Char} (h : isDigitChar c = true) : isSpaceChar c = false := by
  have := isDigitChar_iff.mp h
  rw [Bool.eq_false_iff]
  intro hs
  have := isSpaceChar_iff.mp hs
  omega

theorem lowerStr_idem (s : Str) : lowerStr (lowerStr s) = lowerStr s := by
  simp [lowerStr, Function.comp, toLowerChar_idem]

theorem head?_dropWhile_not {p : Char → Bool} (s : Str) :
    ∀ c ∈ (s.dropWhile p).head?, p c = false := by
  induction s with
  | nil => simp
  | cons a l ih =>
    rw [List.dropWhile_cons]
    by_cases h : p a = true
    · rw [if_pos h]; exact ih
    · rw [if_neg h]
      intro c hc
      simp at hc
      subst hc
      exact Bool.eq_false_iff.mpr h

theorem head?_lstrip (s : Str) : ∀ c ∈ (lstrip s).head?, isSpaceChar c = false :=
  head?_dropWhile_not s

theorem getLast?_rstrip (s : Str) : ∀ c ∈ (rstrip s).getLast?, isSpaceChar c = false := by
  intro c hc
  rw [rstrip, List.getLast?_reverse] at hc
  exact head?_dropWhile_not s.reverse c hc

theorem rstrip_prefix_self (s : Str) : rstrip s <+: s := by
  have h : s.reverse.dropWhile isSpaceChar <:+ s.reverse := List.dropWhile_suffix _
  have h2 := List.reverse_prefix.mpr h
  rwa [List.reverse_reverse] at h2

theorem head?_strip (s : Str) : ∀ c ∈ (strip s).head?, isSpaceChar c = false := by
  intro c hc
  obtain ⟨t, ht⟩ := rstrip_prefix_self (lstrip s)
  rcases hr : rstrip (lstrip s) with _ | ⟨a, l⟩
  · rw [strip, hr] at hc; simp at hc
  · rw [strip, hr] at hc
    simp at hc
    subst hc
    apply head?_lstrip s
    rw [← ht, hr]
    simp

theorem getLast?_strip (s : Str) : ∀ c ∈ (strip s).getLast?, isSpaceChar c = false :=
  getLast?_rstrip (lstrip s)

theorem lstrip_eq_self_of (s : Str) (h : ∀ c ∈ s.head?, isSpaceChar c = false) :
    lstrip s = s := by
  cases s with
  | nil => rfl
  | cons a l =>
    have := h a (by simp)
    simp [lstrip, List.dropWhile, this]

theorem rstrip_eq_self_of (s : Str) (h : ∀ c ∈ s.getLast?, isSpaceChar c = false) :
    rstrip s = s := by
  rw [rstrip]
  have : s.reverse.dropWhile isSpaceChar = s.reverse := by
    apply lstrip_eq_self_of
    intro c hc
    rw [List.head?_reverse] at hc
    exact h c hc
  rw [this, List.reverse_reverse]

theorem strip_idem (s : Str) : strip (strip s) = strip s := by
  rw [strip, lstrip_eq_self_of (strip s) (head?_strip s),
    rstrip_eq_self_of (strip s) (getLast?_strip s)]

theorem goodB_iff {s : Str} : goodB s = true ↔ s ≠ [] ∧ strip s = s := by
  simp [goodB, List.isEmpty_iff]

theorem goodB_strip {s : Str} (h : strip s ≠ []) : goodB (strip s) = true :=
  goodB_iff.mpr ⟨h, strip_idem s⟩

theorem strip_eq_self_of (s : Str) (h1 : ∀ c ∈ s.head?, isSpaceChar c = false)
    (h2 : ∀ c ∈ s.getLast?, isSpaceChar c = false) : strip s = s := by
  rw [strip, lstrip_eq_self_of s h1, rstrip_eq_self_of s h2]

theorem goodB_of_head_last {s : Str} (h0 : s ≠ [])
    (h1 : ∀ c ∈ s.head?, isSpaceChar c = false)
    (h2 : ∀ c ∈ s.getLast?, isSpaceChar c = false) : goodB s = true :=
  goodB_iff.mpr ⟨h0, strip_eq_self_of s h1 h2⟩

theorem head?_goodB {s : Str} (h : goodB s = true) :
    ∀ c ∈ s.head?, isSpaceChar c = false := by
  obtain ⟨_, hs⟩ := goodB_iff.mp h
  rw [← hs]
  exact head?_strip s

theorem getLast?_goodB {s : Str} (h : goodB s = true) :
    ∀ c ∈ s.getLast?, isSpaceChar c = false := by
  obtain ⟨_, hs⟩ := goodB_iff.mp h
  rw [← hs]
  exact getLast?_strip s

/-- Goodness transfers through case-insensitive equality: an original-case
region whose lowercasing is a good pattern is itself good. -/
theorem goodB_of_lower_eq {u p : Str} (h : lowerStr u = p) (hp : goodB p = true) :
    goodB u = true := by
  subst h
  obtain ⟨hne, _⟩ := goodB_iff.mp hp
  apply goodB_of_head_last
  · intro hu; rw [hu] at hne; exact hne rfl
  · intro c hc
    have : toLowerChar c ∈ (lowerStr u).head? := by
      rw [lowerStr, List.head?_map, hc]; rfl
    have := head?_goodB hp _ this
    rw [isSpaceChar_toLowerChar] at this
    exact this
  · intro c hc
    have : toLowerChar c ∈ (lowerStr u).getLast? := by
      rw [lowerStr, List.getLast?_map, hc]; rfl
    have := getLast?_goodB hp _ this
    rw [isSpaceChar_toLowerChar] at this
    exact this

/-! ### Nonemptiness of stripped strings -/

theorem exists_nonspace_of_strip_ne_nil {m : Str} (h : strip m ≠ []) :
    ∃ c ∈ m, isSpaceChar c = false := by
  by_contra hc
  push_neg at hc
  apply h
  have hall : ∀ c ∈ m, isSpaceChar c = true := by
    intro c hcm
    have := hc c hcm
    simpa using this
  have hl : lstrip m = [] := List.dropWhile_eq_nil_iff.mpr hall
  rw [strip, hl]
  rfl

theorem strip_ne_nil_of_exists {m : Str} (h : ∃ c ∈ m, isSpaceChar c = false) :
    strip m ≠ [] := by
  obtain ⟨c, hcm, hcs⟩ := h
  intro hstrip
  have h0 : (lstrip m).reverse.dropWhile isSpaceChar = [] := by
    have h1 : rstrip (lstrip m) = [] := hstrip
    rw [rstrip] at h1
    exact List.reverse_eq_nil_iff.mp h1
  have h1 : ∀ x ∈ lstrip m, isSpaceChar x = true := by
    intro x hx
    exact List.dropWhile_eq_nil_iff.mp h0 x (by simpa using hx)
  have h2 : ∀ x ∈ m, isSpaceChar x = true := by
    intro x hx
    rw [← List.takeWhile_append_dropWhile isSpaceChar m] at hx
    rcases List.mem_append.mp hx with h | h
    · exact List.mem_takeWhile_imp h
    · exact h1 x h
  rw [h2 c hcm] at hcs
  cases hcs

theorem exists_nonspace_lowerStr {m : Str} :
    (∃ c ∈ m, isSpaceChar c = false) ↔ ∃ c ∈ lowerStr m, isSpaceChar c = false := by
  constructor
  · rintro ⟨c, hc, hs⟩
    exact ⟨toLowerChar c, List.mem_map_of_mem _ hc, by rw [isSpaceChar_toLowerChar]; exact hs⟩
  · rintro ⟨c, hc, hs⟩
    obtain ⟨d, hd, rfl⟩ := List.mem_map.mp hc
    exact ⟨d, hd, by rw [← isSpaceChar_toLowerChar]; exact hs⟩

/-! ### What the scanners produce -/

theorem mem_scanCI {p : Str} :
    ∀ {fuel : Nat} {t m : Str}, m ∈ scanCI p fuel t → lowerStr m = p := by
  intro fuel
  induction fuel with
  | zero =>
    intro t m h
    cases t <;> simp [scanCI] at h
  | succ f ih =>
    intro t m h
    cases t with
    | nil => simp [scanCI] at h
    | cons c rest =>
      simp only [scanCI] at h
      split at h
      · rename_i hcond
        rcases List.mem_cons.mp h with rfl | h2
        · have h3 := ((Bool.and_eq_true _ _).mp hcond).2
          simpa [isPrefixCI] using h3
        · exact ih h2
      · exact ih h

theorem mem_findallCI {p t m : Str} (h : m ∈ findallCI p t) : lowerStr m = p :=
  mem_scanCI h

theorem mem_pkScan :
    ∀ {fuel : Nat} {t m : Str}, m ∈ pkScan fuel t →
      m = S "painkillers" ∨ m = S "painkiller" := by
  intro fuel
  induction fuel with
  | zero =>
    intro t m h
    cases t <;> simp [pkScan] at h
  | succ f ih =>
    intro t m h
    cases t with
    | nil => simp [pkScan] at h
    | cons c rest =>
      simp only [pkScan] at h
      split at h
      · split at h
        · rcases List.mem_cons.mp h with rfl | h2
          · exact Or.inl rfl
          · exact ih h2
        · rcases List.mem_cons.mp h with rfl | h2
          · exact Or.inr rfl
          · exact ih h2
      · exact ih h

theorem sessionsAltGo_some :
    ∀ {alts : List Str} {u a2 r : Str}, sessionsAltGo u alts = some (a2, r) →
      ∃ a ws2, a2 = a ++ ws2 ++ S "sessions" := by
  intro alts
  induction alts with
  | nil => intro u a2 r h; simp [sessionsAltGo] at h
  | cons a as ih =>
    intro u a2 r h
    simp only [sessionsAltGo] at h
    split at h
    · split at h
      · rename_i hcond
        cases h
        exact ⟨a, _, rfl⟩
      · exact ih h
    · exact ih h

theorem sessionsMatchAt_good {u m r : Str} (h : sessionsMatchAt u = some (m, r)) :
    goodB m = true := by
  rw [sessionsMatchAt] at h
  dsimp only at h
  split at h
  · cases h
  · rename_i hds
    have hds' : u.takeWhile isDigitChar ≠ [] := by simpa using hds
    split at h
    · cases h
    · rename_i hws
      split at h
      · rename_i a2 r2 halt
        cases h
        obtain ⟨a, ws2, rfl⟩ := sessionsAltGo_some halt
        set ds := u.takeWhile isDigitChar with hdsdef
        apply goodB_of_head_last
        · intro hnil
          simp only [List.append_eq_nil] at hnil
          exact hds' hnil.1.1
        · intro c hc
          rcases hdc : ds with _ | ⟨d, dl⟩
          · exact absurd hdc hds'
          · simp only [hdc, List.cons_append, List.head?_append, List.head?_cons,
              Option.or_some, Option.mem_def, Option.some_inj] at hc
            subst hc
            apply isDigitChar_not_space
            apply List.mem_takeWhile_imp (p := isDigitChar) (l := u)
            rw [← hdsdef, hdc]
            exact List.mem_cons_self _ _
        · intro c hc
          have hsess : (S "sessions").getLast? = some 's' := by decide
          simp only [List.append_assoc, List.getLast?_append, hsess] at hc
          simp only [Option.or_some, Option.mem_def, Option.some_inj] at hc
          subst hc
          decide
      · cases h

theorem mem_sessionsScan :
    ∀ {fuel : Nat} {t m : Str}, m ∈ sessionsScan fuel t → goodB m = true := by
  intro fuel
  induction fuel with
  | zero =>
    intro t m h
    cases t <;> simp [sessionsScan] at h
  | succ f ih =>
    intro t m h
    cases t with
    | nil => simp [sessionsScan] at h
    | cons c rest =>
      simp only [sessionsScan] at h
      split at h
      · rename_i m2 after hmatch
        rcases List.mem_cons.mp h with rfl | h2
        · exact sessionsMatchAt_good hmatch
        · exact ih h2
      · exact ih h

theorem sessionsNumAt_digits {u num : Str} (h : sessionsNumAt u = some num) :
    num ≠ [] ∧ ∀ c ∈ num, isDigitChar c = true := by
  rw [sessionsNumAt] at h
  dsimp only at h
  split at h
  · cases h
  · rename_i hds
    split at h
    · split at h
      · cases h
        refine ⟨by simpa using hds, fun c hc => List.mem_takeWhile_imp hc⟩
      · cases h
    · cases h

theorem sessionsNumSearch_digits :
    ∀ {t num : Str}, sessionsNumSearch t = some num →
      num ≠ [] ∧ ∀ c ∈ num, isDigitChar c = true := by
  intro t
  induction t with
  | nil => intro num h; simp [sessionsNumSearch] at h
  | cons c rest ih =>
    intro num h
    simp only [sessionsNumSearch] at h
    split at h
    · rename_i ds hat
      cases h
      exact sessionsNumAt_digits hat
    · exact ih h

theorem mem_pySetAux :
    ∀ {xs seen : List Str} {x : Str}, x ∈ pySetAux seen xs → x ∈ xs := by
  intro xs
  induction xs with
  | nil => intro seen x h; simp [pySetAux] at h
  | cons a l ih =>
    intro seen x h
    simp only [pySetAux] at h
    split at h
    · exact List.mem_cons_of_mem _ (ih h)
    · rcases List.mem_cons.mp h with rfl | h2
      · exact List.mem_cons_self _ _
      · exact List.mem_cons_of_mem _ (ih h2)

theorem mem_pySetList {xs : List Str} {x : Str} (h : x ∈ pySetList xs) : x ∈ xs :=
  mem_pySetAux h

theorem enhFindall_good {pat : EnhPat} {tl : Str} (hp : enhPatGoodB pat = true) :
    ∀ m ∈ enhFindall pat tl, goodB m = true := by
  cases pat with
  | lit p =>
    intro m hm
    exact goodB_of_lower_eq (mem_findallCI hm) (by simpa [enhPatGoodB] using hp)
  | sessions => intro m hm; exact mem_sessionsScan hm
  | painkillers =>
    intro m hm
    rcases mem_pkScan hm with rfl | rfl <;> decide

theorem capitalize_good {m : Str} (hm : goodB m = true) :
    goodB (capitalizeStr m) = true := by
  obtain ⟨hne, _⟩ := goodB_iff.mp hm
  cases m with
  | nil => exact absurd rfl hne
  | cons c rest =>
    rw [capitalizeStr]
    apply goodB_of_head_last (by simp)
    · intro d hd
      simp only [List.head?_cons, Option.mem_def, Option.some_inj] at hd
      subst hd
      rw [isSpaceChar_toUpperChar]
      exact head?_goodB hm c (by simp)
    · intro d hd
      cases hrest : rest with
      | nil =>
        rw [hrest] at hd
        simp only [lowerStr, List.map_nil, List.getLast?_singleton, Option.mem_def,
          Option.some_inj] at hd
        subst hd
        rw [isSpaceChar_toUpperChar]
        exact getLast?_goodB hm c (by simp [hrest])
      | cons r rs =>
        rw [hrest] at hd
        rw [show lowerStr (r :: rs) = toLowerChar r :: lowerStr rs from rfl,
          List.getLast?_cons_cons,
          show (toLowerChar r :: lowerStr rs : Str) = lowerStr (r :: rs) from rfl,
          lowerStr, List.getLast?_map, Option.mem_def] at hd
        obtain ⟨e, he, rfl⟩ := Option.map_eq_some'.mp hd
        rw [isSpaceChar_toLowerChar]
        apply getLast?_goodB hm
        rw [hrest, List.getLast?_cons_cons]
        exact he

theorem good_append {a b : List Str} (ha : ∀ x ∈ a, goodB x = true)
    (hb : ∀ x ∈ b, goodB x = true) : ∀ x ∈ a ++ b, goodB x = true := by
  intro x hx
  rcases List.mem_append.mp hx with h | h
  · exact ha x h
  · exact hb x h

theorem foldl_capStep_good {base : List Str} {ms acc : List Str}
    (hms : ∀ m ∈ ms, goodB m = true) (hacc : ∀ x ∈ acc, goodB x = true) :
    ∀ x ∈ ms.foldl
      (fun a m => if m ∈ base.map lowerStr then a else a ++ [capitalizeStr m]) acc,
      goodB x = true := by
  induction ms generalizing acc with
  | nil => exact hacc
  | cons m ms ih =>
    apply ih (fun m' h => hms m' (List.mem_cons_of_mem _ h))
    dsimp only
    split
    · exact hacc
    · apply good_append hacc
      intro x hx
      rw [List.mem_singleton] at hx
      subst hx
      exact capitalize_good (hms m (List.mem_cons_self _ _))

theorem sumAdditional_good {tl : Str} {base : List Str} {pats : List EnhPat}
    (hpats : ∀ p ∈ pats, enhPatGoodB p = true) :
    ∀ x ∈ sumAdditional tl base pats, goodB x = true := by
  rw [sumAdditional]
  suffices h : ∀ (ps : List EnhPat) (acc : List Str), (∀ p ∈ ps, enhPatGoodB p = true) →
      (∀ x ∈ acc, goodB x = true) →
      ∀ x ∈ ps.foldl (fun acc pat => (enhFindall pat tl).foldl
        (fun a m => if m ∈ base.map lowerStr then a else a ++ [capitalizeStr m]) acc) acc,
        goodB x = true by
    exact h pats [] hpats (by simp)
  intro ps
  induction ps with
  | nil => intro acc _ hacc; exact hacc
  | cons p ps ih =>
    intro acc hps hacc
    apply ih _ (fun p' hp' => hps p' (List.mem_cons_of_mem _ hp'))
    exact foldl_capStep_good (enhFindall_good (hps p (List.mem_cons_self _ _))) hacc

theorem filterMap_strip_good {xs : List Str} :
    ∀ x ∈ xs.filterMap (fun s => if (strip s).isEmpty then none else some (strip s)),
      goodB x = true := by
  intro x hx
  obtain ⟨s, _, hs⟩ := List.mem_filterMap.mp hx
  by_cases h : (strip s).isEmpty = true
  · rw [if_pos h] at hs; cases hs
  · rw [if_neg h] at hs
    cases hs
    exact goodB_strip (by simpa using h)

theorem mem_cleanupList {xs : List Str} {x : Str} (h : x ∈ cleanupList xs) : x ∈ xs :=
  (List.mem_filter.mp h).1

theorem num_sessions_good {num : Str} (h : num ≠ [])
    (hd : ∀ c ∈ num, isDigitChar c = true) :
    goodB (num ++ S " physiotherapy sessions") = true := by
  apply goodB_of_head_last
  · simp [h]
  · intro c hc
    cases hnum : num with
    | nil => exact absurd hnum h
    | cons d dl =>
      rw [hnum] at hc
      simp only [List.cons_append, List.head?_cons, Option.mem_def, Option.some_inj] at hc
      subst hc
      exact isDigitChar_not_space (hd d (by rw [hnum]; exact List.mem_cons_self _ _))
  · intro c hc
    rw [List.getLast?_append, show (S " physiotherapy sessions").getLast? = some 's' from by
      decide] at hc
    simp only [Option.or_some, Option.mem_def, Option.some_inj] at hc
    subst hc
    decide

theorem sumSymptomPats_good : ∀ p ∈ sumSymptomPats, enhPatGoodB p = true := by decide

theorem sumTreatmentPats_good : ∀ p ∈ sumTreatmentPats, enhPatGoodB p = true := by decide

theorem base_good {xs : List Str} :
    ∀ x ∈ pySetList (xs.filterMap fun s => if (strip s).isEmpty then none else some (strip s)),
      goodB x = true :=
  fun x hx => filterMap_strip_good x (mem_pySetList hx)

theorem good_singleton {s : Str} (h : goodB s = true) : ∀ x ∈ [s], goodB x = true := by
  intro x hx
  rw [List.mem_singleton] at hx
  subst hx
  exact h

/-- Every entry of the `Symptoms` and `Treatment` lists returned by
`extract_medical_info` is a nonempty trimmed string, for every text and
every strategy outcome. -/
theorem extract_lists_good (raised : Bool) (sm : Option (Str → List BioEnt)) (t : Str) :
    (∀ x ∈ (extract_medical_info raised sm t).Symptoms, goodB x = true) ∧
    (∀ x ∈ (extract_medical_info raised sm t).Treatment, goodB x = true) := by
  rw [extract_medical_info]
  split
  · constructor <;> simp [emptyEntityRecord]
  · rw [extractMedicalInfoBody]
    dsimp only
    constructor
    · split
      · split
        · split
          · exact base_good
          · exact good_append base_good (good_singleton (by decide))
        · split
          · exact good_append base_good (good_singleton (by decide))
          · exact good_append (good_append base_good (good_singleton (by decide)))
              (good_singleton (by decide))
      · exact base_good
    · split
      · exact good_append base_good (good_singleton (by decide))
      · split
        · split
          · rename_i num hnum
            obtain ⟨h1, h2⟩ := sessionsNumSearch_digits hnum
            exact good_append base_good (good_singleton (num_sessions_good h1 h2))
          · exact base_good
        · exact base_good

/-- Every entry of the `Symptoms` and `Treatment` lists returned by
`summarize_text` is a nonempty trimmed string, for every text, every
caller-provided entity mapping and every strategy outcome. -/
theorem summarize_lists_good (raised : Bool) (sm : Option (Str → List BioEnt)) (t : Str)
    (ents : Option EntityRecord) :
    (∀ x ∈ (summarize_text raised sm t ents).Symptoms, goodB x = true) ∧
    (∀ x ∈ (summarize_text raised sm t ents).Treatment, goodB x = true) := by
  rw [summarize_text]
  dsimp only
  constructor
  · intro x hx
    have hx2 := mem_pySetList (mem_cleanupList hx)
    rcases List.mem_append.mp hx2 with h | h
    · exact (extract_lists_good raised sm t).1 x h
    · exact sumAdditional_good sumSymptomPats_good x h
  · intro x hx
    have hx2 := mem_pySetList (mem_cleanupList hx)
    rcases List.mem_append.mp hx2 with h | h
    · exact (extract_lists_good raised sm t).2 x h
    · exact sumAdditional_good sumTreatmentPats_good x h

set_option maxRecDepth 10000

/-- Concrete evaluation of the cascade on `dupText` (rule-based path): the
Treatment list carries `10 physiotherapy sessions` twice — once from the
keyword extractor (deduplicated there) and once from the enhanced
treatment fallback of lines 398-399, which appends after deduplication. -/
theorem dupText_Treatment_eq :
    (extract_medical_info false none dupText).Treatment =
      [S "10 physiotherapy sessions", S "physiotherapy", S "physio",
       S "therapy sessions", S "10 physiotherapy sessions"] := by
  decide

/-- Concrete evaluation of the cascade on the E2E transcript
(rule-based path: statistical strategies unavailable). -/
theorem e2eExtract_eq :
    extract_medical_info false none e2eText =
      { Patient_Name := S "Yes",
        Symptoms := [S "back pain", S "pain", S "hurt", S "Neck pain", S "Back pain"],
        Diagnosis := S "Whiplash injury",
        Treatment := [S "physiotherapy", S "physio", S "therapy sessions", S "treatment",
          S "10 physiotherapy sessions"],
        Current_Status := S "Occasional back pain",
        Prognosis := S "Full recovery expected within six months" } := by
  decide

/-! ## Claim theorems -/

/-- C1 counterexample: on `dupText` the Treatment list of
`extract_medical_info` holds the entry `10 physiotherapy sessions` twice
(even case-sensitively equal), so no list-field invariant of
case-insensitive uniqueness holds as claimed. -/
theorem claim_C1_counterexample :
    (extract_medical_info false none dupText).Treatment.count
        (S "10 physiotherapy sessions") = 2 ∧
    ¬ List.Pairwise (fun a b => lowerStr a ≠ lowerStr b)
        (extract_medical_info false none dupText).Treatment := by
  rw [dupText_Treatment_eq]
  exact ⟨by decide, by decide⟩

/-- C1 amended: for every input text, strategy outcome and caller-provided
entity mapping, every entry of the Symptoms and Treatment lists of both
`extract_medical_info` and `summarize_text` is a nonempty, trimmed string
(the claimed case-insensitive deduplication does not hold: the late
fallback appends can duplicate entries, and the first-seen-capitalization
collapse is not performed). -/
theorem claim_C1 (raised : Bool) (sm : Option (Str → List BioEnt)) (t : Str)
    (ents : Option EntityRecord) :
    (extract_medical_info raised sm t).Symptoms.all goodB = true ∧
    (extract_medical_info raised sm t).Treatment.all goodB = true ∧
    (summarize_text raised sm t ents).Symptoms.all goodB = true ∧
    (summarize_text raised sm t ents).Treatment.all goodB = true := by
  refine ⟨List.all_eq_true.mpr ?_, List.all_eq_true.mpr ?_,
    List.all_eq_true.mpr ?_, List.all_eq_true.mpr ?_⟩
  · exact (extract_lists_good raised sm t).1
  · exact (extract_lists_good raised sm t).2
  · exact (summarize_lists_good raised sm t ents).1
  · exact (summarize_lists_good raised sm t ents).2

/-- C2: the cascade always returns a record with exactly the six fixed keys
(in the source's insertion order), and when the body raises (total cascade
failure) the returned record has every field at its empty default; no
exception propagates (the embedded function is total). -/
theorem claim_C2 :
    (∀ (raised : Bool) (sm : Option (Str → List BioEnt)) (t : Str),
      (extract_medical_info raised sm t).toDict.map Prod.fst =
        [S "Patient_Name", S "Symptoms", S "Diagnosis", S "Treatment",
         S "Current_Status", S "Prognosis"]) ∧
    (∀ (sm : Option (Str → List BioEnt)) (t : Str),
      extract_medical_info true sm t = emptyEntityRecord) :=
  ⟨fun _ _ _ => rfl, fun _ _ => rfl⟩

/-- C3 counterexample: on the E2E transcript the returned Current_Status is
the capitalized `Occasional back pain`, which does not contain the claimed
literal `occasional back`. -/
theorem claim_C3_counterexample :
    (extract_medical_info false none e2eText).Current_Status = S "Occasional back pain" ∧
    containsSub (S "occasional back")
      (extract_medical_info false none e2eText).Current_Status = false := by
  rw [e2eExtract_eq]
  exact ⟨rfl, by decide⟩

/-- C3 amended: the E2E scenario on the rule-based path, with
Current_Status equal to `Occasional back pain` (containing `occasional
back` only up to the capitalization of its first letter). -/
theorem claim_C3 :
    (extract_medical_info false none e2eText).Diagnosis = S "Whiplash injury" ∧
    S "Neck pain" ∈ (extract_medical_info false none e2eText).Symptoms ∧
    S "Back pain" ∈ (extract_medical_info false none e2eText).Symptoms ∧
    S "10 physiotherapy sessions" ∈ (extract_medical_info false none e2eText).Treatment ∧
    (extract_medical_info false none e2eText).Current_Status = S "Occasional back pain" ∧
    containsSub (S "six months") (extract_medical_info false none e2eText).Prognosis
      = true := by
  rw [e2eExtract_eq]
  exact ⟨rfl, by decide, by decide, by decide, rfl, by decide⟩

theorem transformer_taxonomy (loaded : Bool) (bert : Str → Option (Str × Nat)) (t : Str) :
    ∀ s, classifySentimentTransformer loaded bert t = some s →
      s = S "Reassured" ∨ s = S "Anxious" ∨ s = S "Neutral" := by
  intro s h
  rw [classifySentimentTransformer] at h
  split at h
  · cases h
  · dsimp only at h
    split at h
    · cases h
    · split at h
      · split at h
        · cases h; exact Or.inl rfl
        · split at h
          · cases h; exact Or.inr (Or.inl rfl)
          · split at h
            · cases h; exact Or.inr (Or.inr rfl)
            · cases h
      · cases h

theorem ruleBased_taxonomy (t : Str) :
    classifySentimentRuleBased t = S "Anxious" ∨
    classifySentimentRuleBased t = S "Reassured" ∨
    classifySentimentRuleBased t = S "Neutral" := by
  rw [classifySentimentRuleBased]
  split
  · exact Or.inl rfl
  · split
    · exact Or.inr (Or.inl rfl)
    · exact Or.inr (Or.inr rfl)

theorem intent_taxonomy (t : Str) :
    classify_intent t = S "Seeking reassurance" ∨
    classify_intent t = S "Reporting symptoms" ∨
    classify_intent t = S "Expressing concern" := by
  rw [classify_intent, classifyIntentRuleBased]
  split
  · exact Or.inl rfl
  · split
    · exact Or.inr (Or.inr rfl)
    · split
      · exact Or.inr (Or.inl rfl)
      · split
        · exact Or.inl rfl
        · exact Or.inr (Or.inl rfl)

/-- C4: for every text and classifier outcome, the sentiment is one of the
three taxonomy labels and the intent one of the three intent labels. -/
theorem claim_C4 (loaded : Bool) (bert : Str → Option (Str × Nat)) (t : Str) :
    classify_utterance_sentiment loaded bert t ∈
      [S "Anxious", S "Neutral", S "Reassured"] ∧
    classify_intent t ∈
      [S "Seeking reassurance", S "Reporting symptoms", S "Expressing concern"] := by
  constructor
  · rw [classify_utterance_sentiment]
    cases htr : classifySentimentTransformer loaded bert t with
    | none => rcases ruleBased_taxonomy t with h | h | h <;> simp [h]
    | some s =>
      dsimp only
      split
      · rcases ruleBased_taxonomy t with h | h | h <;> simp [h]
      · rcases transformer_taxonomy loaded bert t s htr with rfl | rfl | rfl <;> simp
  · rcases intent_taxonomy t with h | h | h <;> simp [h]

/-- C5 counterexample: the empty text has equal (zero) anxious and
reassured keyword counts and zero neutral count, yet the rule-based path
returns `Neutral`, not `Reassured`: the claimed tie-break needs a positive
common count. -/
theorem claim_C5_counterexample :
    kwScore anxiousKeywords (lowerStr (S "")) =
      kwScore reassuredKeywords (lowerStr (S "")) ∧
    kwScore neutralKeywords (lowerStr (S "")) = 0 ∧
    classify_utterance_sentiment false (fun _ => none) (S "") ≠ S "Reassured" := by
  exact ⟨by decide, by decide, by decide⟩

/-- C5 amended: on the rule-based path (transformer unavailable), a text
with equal and positive anxious/reassured keyword counts and zero neutral
count classifies as `Reassured`. -/
theorem claim_C5 (bert : Str → Option (Str × Nat)) (t : Str)
    (h1 : kwScore anxiousKeywords (lowerStr t) = kwScore reassuredKeywords (lowerStr t))
    (h2 : kwScore neutralKeywords (lowerStr t) = 0)
    (h3 : 0 < kwScore reassuredKeywords (lowerStr t)) :
    classify_utterance_sentiment false bert t = S "Reassured" := by
  have htr : classifySentimentTransformer false bert t = none := rfl
  rw [classify_utterance_sentiment, htr, classifySentimentRuleBased]
  dsimp only
  rw [if_neg, if_pos]
  · rw [h2]; exact h3
  · rw [h1]
    simp

/-- C5 witness: `worried but relieved` has one anxious and one reassured
keyword, no neutral keyword, and classifies as `Reassured`. -/
theorem claim_C5_witness :
    0 < kwScore reassuredKeywords (lowerStr (S "worried but relieved")) ∧
    classify_utterance_sentiment false (fun _ => none) (S "worried but relieved")
      = S "Reassured" :=
  ⟨by decide, claim_C5 (fun _ => none) (S "worried but relieved")
    (by decide) (by decide) (by decide)⟩

/-- C6: on the empty transcript the pipeline returns the zero-value Entity
Record and Summary Record, no keywords, the default sentiment pair, and a
SOAP note whose four sections are populated with the placeholder texts. -/
theorem claim_C6 :
    (process_transcript false none false (fun _ => none) none (S "")).entities
      = emptyEntityRecord ∧
    (process_transcript false none false (fun _ => none) none (S "")).summary
      = emptyEntityRecord ∧
    (process_transcript false none false (fun _ => none) none (S "")).keywords = [] ∧
    (process_transcript false none false (fun _ => none) none (S "")).sentiment
      = { session := S "Neutral", intent := S "Reporting symptoms" } ∧
    (process_transcript false none false (fun _ => none) none (S "")).soap
      = { Subjective :=
            { Patient_Name := S "",
              Chief_Complaint := S "Patient consultation - detailed history to be obtained",
              History_of_Present_Illness :=
                S "Chief complaint: Patient consultation - detailed history to be obtained",
              Patient_Sentiment := S "Neutral",
              Patient_Intent := S "Reporting symptoms" },
          Objective :=
            { Physical_Exam := S "Physical examination findings to be documented",
              Observations := S "Patient cooperative during consultation",
              Vital_Signs := S "To be documented during physical examination",
              Assessment_Confidence := S "0.70" },
          Assessment :=
            { Diagnosis := S "Diagnosis pending further evaluation",
              Severity := S "moderate",
              Prognosis := S "Prognosis to be determined",
              Clinical_Notes := S "Standard assessment completed" },
          Plan :=
            { Treatment := [S "Treatment plan to be determined based on assessment"],
              Follow_Up := [S "Return if symptoms worsen or persist"],
              Patient_Education := S "Patient education provided as appropriate",
              Next_Steps := S "Continue current treatment plan and monitor progress" },
          Metadata :=
            { Text_Length := 0,
              Keywords_Extracted := 0,
              Symptoms_Identified := 0,
              Treatments_Identified := 0,
              Analysis_Method := S "rule_based",
              Processing_Timestamp := S "Generated from NLP pipeline" } } := by
  exact ⟨by decide, by decide, rfl, by decide, by decide⟩

/-- C9: the summarizer's output is independent of the caller-provided
entity mapping — it re-runs the extraction cascade internally and
recomputes the patient name, never reading `ents`. -/
theorem claim_C9 (raised : Bool) (sm : Option (Str → List BioEnt)) (t : Str)
    (e1 e2 : Option EntityRecord) :
    summarize_text raised sm t e1 = summarize_text raised sm t e2 := rfl

/-- C10: in the pipeline's result mapping, the SOAP Subjective sentiment
and intent equal the top-level sentiment entry, and the SOAP metadata
keyword count equals the length of the top-level keyword list. -/
theorem claim_C10 (raised : Bool) (sm : Option (Str → List BioEnt)) (loaded : Bool)
    (bert : Str → Option (Str × Nat)) (kwModel : Option (Str → List Str)) (t : Str) :
    (process_transcript raised sm loaded bert kwModel t).soap.Subjective.Patient_Sentiment
      = (process_transcript raised sm loaded bert kwModel t).sentiment.session ∧
    (process_transcript raised sm loaded bert kwModel t).soap.Subjective.Patient_Intent
      = (process_transcript raised sm loaded bert kwModel t).sentiment.intent ∧
    (process_transcript raised sm loaded bert kwModel t).soap.Metadata.Keywords_Extracted
      = (process_transcript raised sm loaded bert kwModel t).keywords.length :=
  ⟨rfl, rfl, rfl⟩

theorem mem_if_self_append {x : Str} {l : List Str} :
    x ∈ (if x ∈ l then l else l ++ [x]) := by
  split
  · assumption
  · simp

theorem mem_if_mono {x y : Str} {l : List Str} (h : x ∈ l) :
    x ∈ (if y ∈ l then l else l ++ [y]) := by
  split
  · exact h
  · exact List.mem_append_left _ h

/-- C7: for transcripts longer than 512 characters, the statistical
strategy is consulted only on the first 512 characters (its result is
unchanged by truncating the text), while the keyword/regex strategies and
the lexical-trigger fallbacks see the full text: each cue class still
surfaces in the returned record wherever it occurs. -/
theorem claim_C7 (sm : Option (Str → List BioEnt)) (t : Str) (hlen : 512 < t.length) :
    (extractEntitiesBiobert sm t = extractEntitiesBiobert sm (t.take 512)) ∧
    (containsSub (S "whiplash") (lowerStr t) = true →
      (extract_medical_info false sm t).Diagnosis ≠ [] ∧
      (extract_medical_info false sm t).Prognosis ≠ []) ∧
    (containsSub (S "neck") (lowerStr t) = true →
      containsSub (S "back") (lowerStr t) = true →
      S "Neck pain" ∈ (extract_medical_info false sm t).Symptoms ∧
      S "Back pain" ∈ (extract_medical_info false sm t).Symptoms) ∧
    (containsSub (S "10 physiotherapy sessions") (lowerStr t) = true →
      S "10 physiotherapy sessions" ∈ (extract_medical_info false sm t).Treatment) ∧
    (containsSub (S "occasional") (lowerStr t) = true →
      containsSub (S "back") (lowerStr t) = true →
      (extract_medical_info false sm t).Current_Status ≠ []) := by
  have hbody : extract_medical_info false sm t = extractMedicalInfoBody sm t := rfl
  have htake : (t.take 512).length = 512 := by
    rw [List.length_take]
    omega
  refine ⟨?_, ?_, ?_, ?_, ?_⟩
  · simp only [extractEntitiesBiobert]
    cases sm with
    | none => rfl
    | some f =>
      rw [if_pos hlen, htake, if_neg (by omega)]
  · intro hW
    rw [hbody, extractMedicalInfoBody]
    dsimp only
    constructor
    · split
      all_goals first
        | (rename_i h; simpa using h)
        | decide
    · split
      all_goals first
        | (rename_i h; simpa using h)
        | (repeat' split; all_goals first | decide | simp_all)
  · intro hN hB
    rw [hbody, extractMedicalInfoBody]
    dsimp only
    rw [if_pos (by simp [hN, hB])]
    exact ⟨mem_if_mono mem_if_self_append, mem_if_self_append⟩
  · intro hT
    rw [hbody, extractMedicalInfoBody]
    dsimp only
    rw [if_pos (by simp [hT])]
    simp
  · intro hO hB
    rw [hbody, extractMedicalInfoBody]
    dsimp only
    split
    all_goals first
      | (rename_i h; simpa using h)
      | decide
      | (repeat' split; all_goals first | decide | simp_all)

/-- C7 witness: a 577-character transcript whose cues all lie after
character 512 still yields a nonempty diagnosis, both forced symptoms, the
session treatment and a nonempty status. -/
theorem claim_C7_witness :
    512 < c7Text.length ∧
    containsSub (S "whiplash") (lowerStr c7Text) = true ∧
    ((extract_medical_info false none c7Text).Diagnosis ≠ [] ∧
     (extract_medical_info false none c7Text).Prognosis ≠ []) ∧
    (S "Neck pain" ∈ (extract_medical_info false none c7Text).Symptoms ∧
     S "Back pain" ∈ (extract_medical_info false none c7Text).Symptoms) ∧
    S "10 physiotherapy sessions" ∈ (extract_medical_info false none c7Text).Treatment ∧
    (extract_medical_info false none c7Text).Current_Status ≠ [] := by
  have h := claim_C7 none c7Text (by decide)
  exact ⟨by decide, by decide, h.2.1 (by decide),
    h.2.2.1 (by decide) (by decide), h.2.2.2.1 (by decide),
    h.2.2.2.2 (by decide) (by decide)⟩

/-- C8 counterexample: the pipeline's name extractor captures a name for
`My name is Mr Smith` and the returned name contains the title token `Mr`
— no title stripping is performed by `_extract_patient_name`. -/
theorem claim_C8_counterexample :
    extractPatientName titleText ≠ [] ∧
    hasTitleToken (extractPatientName titleText) = true := by
  exact ⟨by decide, by decide⟩

/-- C8 amended: the pipeline's `_extract_patient_name` returns the
captured group verbatim (`Mr Smith`, title retained); the title stripping
described by the spec exists only in `utils/helpers.py`'s
`extract_patient_name`, which the cascade does not call (it returns
`Smith` on the same input). -/
theorem claim_C8 :
    extractPatientName titleText = S "Mr Smith" ∧
    helpersExtractPatientName titleText = some (S "Smith") := by
  exact ⟨by decide, by decide⟩
